import Mathlib

/-!
Shallow embedding of the Blekky/blekk PMU brush engine
(`src/BlekkProPMUBrushes.js`) and of the symmetry-score computation
(`src/BlekkProFacialRecognition.js`), together with theorems settling the
frozen claims about the natural-language specification.

Modelling conventions:
* JavaScript numbers are embedded as `ℚ`.  `Math.sqrt` is embedded as an
  abstract function parameter `jsSqrt : ℚ → ℚ`; theorems that need the
  defining properties of the square root take them as hypotheses restricted
  to the values actually encountered (a total rational square root does not
  exist, but every fact proved with such hypotheses holds for the real
  `Math.sqrt`, which satisfies them).
* `Math.random()` is embedded as an abstract stream `rand : ℕ → ℚ`, consumed
  in call order through an explicit counter, matching the source's ambient
  `Math.random()` calls.
* The 2D drawing surface (`CanvasRenderingContext2D`) is embedded as a
  record of its transient drawing state plus a save stack and a log of
  emitted drawing primitives.  A stroked polyline records, for each
  `lineTo`, the `lineWidth` in effect at that moment (the width the source
  sets immediately before the `lineTo`).
* A JS point `{x, y, pressure}` has `pressure` read as `point.pressure || 1`:
  an absent (`undefined`) pressure is modelled as the falsy value `0`.
-/

namespace Blekk

/-- An input sample `{x, y, pressure}`; `pressure = 0` models a falsy/absent
pressure field. -/
structure Pt where
  x : ℚ
  y : ℚ
  pressure : ℚ
deriving DecidableEq, Repr

/-- The source reads per-point pressure as `point.pressure || 1`. -/
def press (p : Pt) : ℚ := if p.pressure = 0 then 1 else p.pressure

/-- Drawing primitives emitted against the surface.

* `dab x y r a` — `_drawDot`: one filled circle of radius `r` at `(x,y)`
  filled with `globalAlpha = a` (source lines 620–626).
* `satPair x y size a rnd` — the two satellite dabs of `_drawTripleDot`
  (source lines 632–647): radius `size*0.8/2`, alpha `a*0.9`, placed at
  offset `0.6*size` from `(x,y)` along the random angle `rnd*2π` and that
  angle plus `2π/3`; the trigonometric positions are irrational so the op
  records the parameters (no claim inspects the satellite coordinates).
* `seg x1 y1 x2 y2 w a` — one single-segment stroked path
  (`beginPath; moveTo; lineTo; stroke`) of width `w` and alpha `a`, as
  emitted per segment by `_applyOmbreLipOutline`.
* `path x0 y0 segs a` — one stroked polyline starting at `(x0,y0)`; each
  entry `(x, y, w)` of `segs` is a `lineTo (x,y)` with `lineWidth = w` in
  effect when it was issued; `a` is the `globalAlpha` at `stroke()` time. -/
inductive DrawOp where
  | dab (x y r a : ℚ)
  | satPair (x y size a rnd : ℚ)
  | seg (x1 y1 x2 y2 w a : ℚ)
  | path (x0 y0 : ℚ) (segs : List (ℚ × ℚ × ℚ)) (a : ℚ)
deriving DecidableEq, Repr

/-- The transient drawing state of the surface that `save`/`restore`
snapshot. -/
structure Transient where
  globalCompositeOperation : String
  globalAlpha : ℚ
  lineDash : List ℚ
  strokeStyle : String
  fillStyle : String
  lineWidth : ℚ
  lineCap : String
  lineJoin : String
deriving DecidableEq, Repr

/-- The drawing surface: current transient state, the `save` stack, and the
log of emitted primitives. -/
structure Ctx where
  t : Transient
  saveStack : List Transient
  ops : List DrawOp
deriving DecidableEq, Repr

/-- `ctx.save()`. -/
def Ctx.save (c : Ctx) : Ctx := { c with saveStack := c.t :: c.saveStack }

/-- `ctx.restore()` (a no-op on an empty stack, as in the canvas API). -/
def Ctx.restore (c : Ctx) : Ctx :=
  match c.saveStack with
  | [] => c
  | t :: rest => { c with t := t, saveStack := rest }

/-- Append an emitted primitive to the log. -/
def Ctx.emit (c : Ctx) (op : DrawOp) : Ctx := { c with ops := c.ops ++ [op] }

/-! ### Brush catalog, access policy and selection (source lines 4–164) -/

/-- A catalog entry (one brush preset object of `this.brushPresets`). -/
structure BrushPreset where
  name : String
  family : String
  size : ℚ
  opacity : ℚ
  spacing : ℚ
  scatter : ℚ
  pressureSensitivity : ℚ
  subscription : String
deriving DecidableEq, Repr

/-- The selected brush: a copy of a preset tagged with its id and category
(source lines 154–158). -/
structure CurrentBrush extends BrushPreset where
  id : String
  category : String
deriving DecidableEq, Repr

/-- The static brush catalog `this.brushPresets` (source lines 7–74).
The JS field `type` is named `family` here (`type` clashes with Lean
conventions); its values are the source's `'liner'`, `'shader'`,
`'specialized'`. -/
def brushPresets : List (String × List (String × BrushPreset)) :=
  [("basic",
     [("standardLiner",
        ⟨"Standard Liner", "liner", 1, 9/10, 1/10, 0, 7/10, "free"⟩),
      ("standardShader",
        ⟨"Standard Shader", "shader", 3, 8/10, 15/100, 1/10, 8/10, "free"⟩),
      ("powderBrow",
        ⟨"Powder Brow", "shader", 5, 6/10, 2/10, 3/10, 5/10, "free"⟩)]),
   ("advanced",
     [("shader3RS",
        ⟨"3RS Shader", "specialized", 3, 85/100, 12/100, 8/100, 9/10, "pro"⟩),
      ("ombreLipOutline",
        ⟨"Ombre Lip Outline", "specialized", 2, 9/10, 5/100, 2/100, 8/10, "pro"⟩),
      ("microbladeNatural",
        ⟨"Microblade Natural", "specialized", 1, 95/100, 2/100, 1/100, 9/10, "pro"⟩)])]

/-- Upgrade prompt content (source lines 233–286). -/
structure UpgradePrompt where
  title : String
  message : String
  benefits : List String
deriving DecidableEq, Repr

/-- `getUpgradePrompt` (source lines 233–286): feature-specific prompt, or
the default prompt for an unknown feature id. -/
def getUpgradePrompt (featureId : String) : UpgradePrompt :=
  match brushPromptLookup featureId with
  | some p => p
  | none =>
    ⟨"Unlock Pro Features",
     "Upgrade to BlekkPro Pro to access all professional features.",
     ["All specialized PMU brushes", "Advanced customization options",
      "High-resolution exports", "Priority support"]⟩
where
  brushPromptLookup (featureId : String) : Option UpgradePrompt :=
    List.lookup featureId
      [("shader3RS",
         ⟨"Unlock 3RS Shader Brush",
          "Upgrade to BlekkPro Pro to access professional 3RS shader brushes for perfect brow shading.",
          ["Realistic 3-needle round shader simulation",
           "Precise pigment distribution control",
           "Professional-grade results"]⟩),
       ("ombreLipOutline",
         ⟨"Unlock Ombre Lip Outline Tool",
          "Upgrade to BlekkPro Pro to access specialized ombre lip outline tools for perfect lip treatments.",
          ["Specialized lip outline brushes",
           "Gradient and feathering controls",
           "Realistic lip blush simulation"]⟩),
       ("microbladeNatural",
         ⟨"Unlock Natural Microblade Tool",
          "Upgrade to BlekkPro Pro to access natural microblade tools for realistic hair strokes.",
          ["Realistic hair stroke simulation",
           "Natural-looking results",
           "Advanced pressure sensitivity"]⟩),
       ("export_high_res",
         ⟨"Unlock High-Resolution Export",
          "Upgrade to BlekkPro Pro to export your designs in high resolution.",
          ["Professional-quality exports",
           "Print-ready resolution",
           "Lossless image quality"]⟩)]

/-- The outcome of `selectBrush`: the source's
`{success:true, brush}` / `{success:false, reason, message, upgradePrompt?}`
objects. -/
inductive SelectResult where
  | success (brush : CurrentBrush)
  | failure (reason : String) (message : String) (upgradePrompt : Option UpgradePrompt)
deriving DecidableEq, Repr

/-- `selectBrush(category, brushId)` (source lines 122–164), with the
session's `this.userSubscription` passed explicitly. -/
def selectBrush (userSubscription category brushId : String) : SelectResult :=
  match List.lookup category brushPresets with
  | none => .failure "invalid_category" ("Invalid brush category: " ++ category) none
  | some cat =>
    match List.lookup brushId cat with
    | none => .failure "invalid_brush" ("Invalid brush: " ++ brushId) none
    | some brush =>
      if brush.subscription = "pro" ∧ userSubscription ≠ "pro" then
        .failure "subscription_required" "This brush requires a Pro subscription"
          (some (getUpgradePrompt brushId))
      else
        .success { brush with id := brushId, category := category }

/-! ### Symmetry score (`src/BlekkProFacialRecognition.js`, lines 171–227) -/

/-- A plain 2D point. -/
structure P2 where
  x : ℚ
  y : ℚ
deriving DecidableEq, Repr

/-- A line given by two endpoints, as passed to `distanceToLine`. -/
structure LineSeg where
  x1 : ℚ
  y1 : ℚ
  x2 : ℚ
  y2 : ℚ
deriving DecidableEq, Repr

/-- The landmark groups consumed by `calculateSymmetryScore`; the three
symmetry reference points are optional (absent keys). -/
structure Landmarks where
  browLeft : List P2
  browRight : List P2
  lipOuter : List P2
  midForehead : Option P2
  noseTip : Option P2
  midChin : Option P2
deriving DecidableEq, Repr

/-- `calculateCentroid` (source lines 234–243). -/
def calculateCentroid (points : List P2) : P2 :=
  ⟨(points.map P2.x).sum / points.length, (points.map P2.y).sum / points.length⟩

/-- `Math.round`: round half away from zero toward `+∞` on the nonnegative
inputs that occur here; for `q ≥ 0`, `Math.round q = ⌊q + 1/2⌋`. -/
def jsRound (q : ℚ) : ℤ := ⌊q + 1/2⌋

/-- `calculateSymmetryScore(landmarks)` (source lines 171–227).

`d2l` abstracts the source's `distanceToLine` (point-to-segment Euclidean
distance, lines 251–281), whose final `Math.sqrt` is irrational; theorems
that need it nonnegative take that as a hypothesis. -/
def calculateSymmetryScore (d2l : P2 → LineSeg → ℚ) (lm : Landmarks) : ℤ :=
  match lm.midForehead, lm.noseTip, lm.midChin with
  | some mf, some _, some mc =>
    let midline : LineSeg := ⟨mf.x, mf.y, mc.x, mc.y⟩
    let browPart : ℚ × ℕ :=
      if 0 < lm.browLeft.length ∧ 0 < lm.browRight.length then
        (|d2l (calculateCentroid lm.browLeft) midline
          - d2l (calculateCentroid lm.browRight) midline|, 1)
      else (0, 0)
    let lipPart : ℚ × ℕ :=
      if 0 < lm.lipOuter.length then
        (d2l (calculateCentroid lm.lipOuter) midline, 1)
      else (0, 0)
    let totalDeviation := browPart.1 + lipPart.1
    let pointCount := browPart.2 + lipPart.2
    if pointCount = 0 then 80
    else
      let avgDeviation := totalDeviation / pointCount
      let score := max 0 (min 100 (100 - avgDeviation / 20 * 100))
      jsRound score
  | _, _, _ => 80

/-! ### Stroke renderer (`applyBrushStroke` and the private appliers) -/

/-- `_drawDot(ctx, x, y, size, color, alpha)` (source lines 620–626):
sets `globalAlpha` and `fillStyle`, then fills a circle of radius
`size / 2` at `(x, y)`. -/
def drawDot (c : Ctx) (x y size : ℚ) (color : String) (alpha : ℚ) : Ctx :=
  { c with t := { c.t with globalAlpha := alpha, fillStyle := color },
           ops := c.ops ++ [.dab x y (size / 2) alpha] }

/-- `_drawTripleDot(ctx, x, y, size, color, alpha)` (source lines 632–647):
one center dab via `_drawDot`, then two satellite dabs of radius
`size*0.8/2` and alpha `alpha*0.9` at a random angle `rnd*2π` (one
`Math.random()` call) and that angle plus `2π/3`, offset `0.6*size`. -/
def drawTripleDot (c : Ctx) (x y size : ℚ) (color : String) (alpha rnd : ℚ) : Ctx :=
  let c := drawDot c x y size color alpha
  { c with t := { c.t with globalAlpha := alpha * (9/10), fillStyle := color },
           ops := c.ops ++ [.satPair x y size alpha rnd] }

/-- `_applyLinerBrush` (source lines 347–372): one continuous stroked path;
`lineWidth` is set to `size * (1 + (pressure - 0.5) * pressureSensitivity)`
before each `lineTo` from the second point on. -/
def applyLinerBrush (c : Ctx) (points : List Pt) (colorStr : String)
    (size opacity pressureSensitivity : ℚ) : Ctx :=
  match points with
  | [] => c
  | p0 :: rest =>
    let segs := rest.map fun p =>
      (p.x, p.y, size * (1 + (press p - 1/2) * pressureSensitivity))
    let finalWidth := ((segs.map fun s => s.2.2).getLast?).getD size
    { c with
      t := { c.t with strokeStyle := colorStr, lineWidth := finalWidth,
                      lineCap := "round", lineJoin := "round", globalAlpha := opacity },
      ops := c.ops ++ [.path p0.x p0.y segs opacity] }

/-- `_applyDefaultBrush` (source lines 597–614): fallback for unknown brush
types — one stroked path through all points with constant `lineWidth = size`
and constant `globalAlpha = opacity`. -/
def applyDefaultBrush (c : Ctx) (points : List Pt) (colorStr : String)
    (size opacity : ℚ) : Ctx :=
  match points with
  | [] => c
  | p0 :: rest =>
    let segs := rest.map fun p => (p.x, p.y, size)
    { c with
      t := { c.t with strokeStyle := colorStr, lineWidth := size,
                      lineCap := "round", lineJoin := "round", globalAlpha := opacity },
      ops := c.ops ++ [.path p0.x p0.y segs opacity] }

/-- One dab produced by the shader loop: the index `i` of the loop iteration
that stamped it, its (jittered) center, its adjusted size, and its alpha. -/
structure Dab where
  idx : ℕ
  x : ℚ
  y : ℚ
  size : ℚ
  alpha : ℚ
deriving DecidableEq, Repr

/-- The loop of `_applyShaderBrush` (source lines 387–412) over points
`P i, P (i+1), …` for `fuel` iterations, carrying the last stamped
(unjittered) position `(lastX, lastY)` and the `Math.random()` counter `k`
(two calls per stamped dab, in order `scatterX`, `scatterY`). -/
def shaderDabs (P : ℕ → Pt) (size opacity scatter pressureSensitivity minDistance : ℚ)
    (jsSqrt : ℚ → ℚ) (rand : ℕ → ℚ) :
    ℕ → ℕ → ℚ → ℚ → ℕ → List Dab
  | 0, _, _, _, _ => []
  | fuel + 1, i, lastX, lastY, k =>
    let p := P i
    let pressure := press p
    let dx := p.x - lastX
    let dy := p.y - lastY
    let distance := jsSqrt (dx * dx + dy * dy)
    if minDistance ≤ distance then
      let adjustedSize := size * (1 + (pressure - 1/2) * pressureSensitivity)
      let scatterX := (rand k - 1/2) * scatter * size * 2
      let scatterY := (rand (k+1) - 1/2) * scatter * size * 2
      ⟨i, p.x + scatterX, p.y + scatterY, adjustedSize, opacity * pressure⟩ ::
        shaderDabs P size opacity scatter pressureSensitivity minDistance jsSqrt rand
          fuel (i+1) p.x p.y (k+2)
    else
      shaderDabs P size opacity scatter pressureSensitivity minDistance jsSqrt rand
        fuel (i+1) lastX lastY k

/-- `_applyShaderBrush` (source lines 378–413): an initial dot at the first
point (full `size`, alpha `opacity`, no jitter, no distance gate), then the
distance-gated jittered dabs. -/
def applyShaderBrush (jsSqrt : ℚ → ℚ) (rand : ℕ → ℚ) (c : Ctx) (points : List Pt)
    (colorStr : String) (size opacity spacing scatter pressureSensitivity : ℚ) : Ctx :=
  match points with
  | [] => c
  | p0 :: _ =>
    let minDistance := size * spacing
    let c := drawDot c p0.x p0.y size colorStr opacity
    let dabs := shaderDabs (fun i => points.getD i p0)
      size opacity scatter pressureSensitivity minDistance jsSqrt rand
      (points.length - 1) 1 p0.x p0.y 0
    dabs.foldl (fun c d => drawDot c d.x d.y d.size colorStr d.alpha) c

/-- One triple-dab produced by the 3RS loop; `rnd` is the `Math.random()`
value consumed by `_drawTripleDot` for the satellite angle. -/
structure TDab where
  idx : ℕ
  x : ℚ
  y : ℚ
  size : ℚ
  alpha : ℚ
  rnd : ℚ
deriving DecidableEq, Repr

/-- The loop of `_apply3RSShader` (source lines 459–484); three
`Math.random()` calls per stamped triple-dab, in order `scatterX`,
`scatterY`, satellite angle.  Note the scatter amplitude is
`(rand - 0.5) * scatter * size` — half the shader's amplitude. -/
def shader3RSDabs (P : ℕ → Pt) (size opacity scatter pressureSensitivity minDistance : ℚ)
    (jsSqrt : ℚ → ℚ) (rand : ℕ → ℚ) :
    ℕ → ℕ → ℚ → ℚ → ℕ → List TDab
  | 0, _, _, _, _ => []
  | fuel + 1, i, lastX, lastY, k =>
    let p := P i
    let pressure := press p
    let dx := p.x - lastX
    let dy := p.y - lastY
    let distance := jsSqrt (dx * dx + dy * dy)
    if minDistance ≤ distance then
      let adjustedSize := size * (1 + (pressure - 1/2) * pressureSensitivity)
      let scatterX := (rand k - 1/2) * scatter * size
      let scatterY := (rand (k+1) - 1/2) * scatter * size
      ⟨i, p.x + scatterX, p.y + scatterY, adjustedSize, opacity * pressure, rand (k+2)⟩ ::
        shader3RSDabs P size opacity scatter pressureSensitivity minDistance jsSqrt rand
          fuel (i+1) p.x p.y (k+3)
    else
      shader3RSDabs P size opacity scatter pressureSensitivity minDistance jsSqrt rand
        fuel (i+1) lastX lastY k

/-- `_apply3RSShader` (source lines 450–485): an initial triple-dot at the
first point (full `size`, alpha `opacity`, no jitter, no gate; consumes
`rand 0` for its satellite angle), then the gated jittered triple-dabs. -/
def apply3RSShader (jsSqrt : ℚ → ℚ) (rand : ℕ → ℚ) (c : Ctx) (points : List Pt)
    (colorStr : String) (size opacity spacing scatter pressureSensitivity : ℚ) : Ctx :=
  match points with
  | [] => c
  | p0 :: _ =>
    let minDistance := size * spacing
    let c := drawTripleDot c p0.x p0.y size colorStr opacity (rand 0)
    let dabs := shader3RSDabs (fun i => points.getD i p0)
      size opacity scatter pressureSensitivity minDistance jsSqrt rand
      (points.length - 1) 1 p0.x p0.y 1
    dabs.foldl (fun c d => drawTripleDot c d.x d.y d.size colorStr d.alpha d.rnd) c

/-- The per-segment data of `_applyOmbreLipOutline` (source lines 511–535):
for segment index `i` (1-based, `nQ = points.length - 1`), the segment
`(x1,y1) → (x2,y2)`, its width and its alpha
`opacity * (1 - (i/nQ) * 0.3) * pressure`. -/
def ombreSegs (size opacity pressureSensitivity nQ : ℚ) :
    ℕ → Pt → List Pt → List (ℚ × ℚ × ℚ × ℚ × ℚ × ℚ)
  | _, _, [] => []
  | i, prev, p :: rest =>
    let pressure := press p
    let adjustedSize := size * (1 + (pressure - 1/2) * pressureSensitivity)
    let progress := (i : ℚ) / nQ
    let adjustedOpacity := opacity * (1 - progress * (3/10)) * pressure
    (prev.x, prev.y, p.x, p.y, adjustedSize, adjustedOpacity) ::
      ombreSegs size opacity pressureSensitivity nQ (i+1) p rest

/-- The `rgba(${r}, ${g}, ${b}, ${a})` stroke style string rebuilt by
`_applyOmbreLipOutline` from `colorStr` (source lines 496–499, 524). -/
def ombreStyle (colorStr : String) (a : ℚ) : String :=
  let baseColor := (((colorStr.replace "rgba(" "").replace ")" "").splitOn ",")
  "rgba(" ++ baseColor.getD 0 "" ++ ", " ++ baseColor.getD 1 "" ++ ", "
    ++ baseColor.getD 2 "" ++ ", " ++ toString a ++ ")"

/-- `_applyOmbreLipOutline` (source lines 491–536): no-op below 2 points;
otherwise each segment is its own single-segment stroked path with its own
width and alpha. -/
def applyOmbreLipOutline (c : Ctx) (points : List Pt) (colorStr : String)
    (size opacity pressureSensitivity : ℚ) : Ctx :=
  if points.length < 2 then c
  else
    match points with
    | [] => c
    | p0 :: rest =>
      let segs := ombreSegs size opacity pressureSensitivity
        ((points.length : ℚ) - 1) 1 p0 rest
      let last := segs.getLast?
      { c with
        t := { c.t with
               strokeStyle := match last with
                 | some s => ombreStyle colorStr s.2.2.2.2.2
                 | none => colorStr,
               lineWidth := match last with
                 | some s => s.2.2.2.2.1
                 | none => size,
               globalAlpha := match last with
                 | some s => s.2.2.2.2.2
                 | none => c.t.globalAlpha,
               lineCap := "round", lineJoin := "round" },
        ops := c.ops ++ segs.map fun s => .seg s.1 s.2.1 s.2.2.1 s.2.2.2.1 s.2.2.2.2.1 s.2.2.2.2.2 }

/-- One consecutive-point segment length
`Math.sqrt(dx*dx + dy*dy)` (source lines 556–558, 571–573). -/
def segLen (jsSqrt : ℚ → ℚ) (a b : Pt) : ℚ :=
  jsSqrt ((b.x - a.x) * (b.x - a.x) + (b.y - a.y) * (b.y - a.y))

/-- Total path length of `_applyMicrobladeNatural`'s first pass
(source lines 554–559), summing from the given previous point. -/
def pathLenFrom (jsSqrt : ℚ → ℚ) : Pt → List Pt → ℚ
  | _, [] => 0
  | prev, p :: rest => segLen jsSqrt prev p + pathLenFrom jsSqrt p rest

/-- The per-point data of `_applyMicrobladeNatural`'s second pass (source
lines 562–588): for each point after the first, the `lineTo` target and the
`lineWidth = size * taperFactor * (1 + (pressure-0.5)*pressureSensitivity)`
in effect, where `taperFactor = 4 * progress * (1 - progress)` and
`progress = currentLength / totalLength`. -/
def microbladeSegs (jsSqrt : ℚ → ℚ) (size pressureSensitivity totalLength : ℚ) :
    ℚ → Pt → List Pt → List (ℚ × ℚ × ℚ)
  | _, _, [] => []
  | currentLength, prev, p :: rest =>
    let pressure := press p
    let currentLength := currentLength + segLen jsSqrt prev p
    let progress := currentLength / totalLength
    let taperFactor := 4 * progress * (1 - progress)
    let adjustedSize := size * taperFactor * (1 + (pressure - 1/2) * pressureSensitivity)
    (p.x, p.y, adjustedSize) :: microbladeSegs jsSqrt size pressureSensitivity totalLength
      currentLength p rest

/-- `_applyMicrobladeNatural` (source lines 542–591): no-op below 2 points;
otherwise one continuous stroked path with tapered per-point widths and
constant `globalAlpha = opacity`. -/
def applyMicrobladeNatural (jsSqrt : ℚ → ℚ) (c : Ctx) (points : List Pt)
    (colorStr : String) (size opacity pressureSensitivity : ℚ) : Ctx :=
  if points.length < 2 then c
  else
    match points with
    | [] => c
    | p0 :: rest =>
      let totalLength := pathLenFrom jsSqrt p0 rest
      let segs := microbladeSegs jsSqrt size pressureSensitivity totalLength 0 p0 rest
      let finalWidth := ((segs.map fun s => s.2.2).getLast?).getD c.t.lineWidth
      { c with
        t := { c.t with strokeStyle := colorStr, lineCap := "round", lineJoin := "round",
                        globalAlpha := opacity, lineWidth := finalWidth },
        ops := c.ops ++ [.path p0.x p0.y segs opacity] }

/-- `_applySpecializedBrush` (source lines 419–444): dispatch on
`this.currentBrush.id`; an unrecognized id falls back to
`_applyShaderBrush`. -/
def applySpecializedBrush (jsSqrt : ℚ → ℚ) (rand : ℕ → ℚ) (c : Ctx) (points : List Pt)
    (colorStr : String) (size opacity spacing scatter pressureSensitivity : ℚ)
    (brushId : String) : Ctx :=
  if brushId = "shader3RS" then
    apply3RSShader jsSqrt rand c points colorStr size opacity spacing scatter pressureSensitivity
  else if brushId = "ombreLipOutline" then
    applyOmbreLipOutline c points colorStr size opacity pressureSensitivity
  else if brushId = "microbladeNatural" then
    applyMicrobladeNatural jsSqrt c points colorStr size opacity pressureSensitivity
  else
    applyShaderBrush jsSqrt rand c points colorStr size opacity spacing scatter pressureSensitivity

/-- The `rgba(${r}, ${g}, ${b}, 1)` color string (source line 308). -/
def colorToStr (r g b : ℤ) : String :=
  "rgba(" ++ toString r ++ ", " ++ toString g ++ ", " ++ toString b ++ ", 1)"

/-- `applyBrushStroke(ctx, points, color)` (source lines 295–341).

* A missing surface, an empty stroke (a null `points` is modelled as the
  empty list — both fail the same guard) or a missing selected brush
  returns `false` before any state is touched.
* Inside the `try`, the state is saved and `globalCompositeOperation` is set
  to `'source-over'`; building `colorStr` from a null `color` throws a
  `TypeError` (`color[0]` on `null`), which the `catch` turns into `false`
  — *without* restoring the saved state.
* Otherwise the brush-family dispatch runs and the state is restored. -/
def applyBrushStroke (jsSqrt : ℚ → ℚ) (rand : ℕ → ℚ) (ctx : Option Ctx)
    (points : List Pt) (color : Option (ℤ × ℤ × ℤ))
    (currentBrush : Option CurrentBrush) : Bool × Option Ctx :=
  match ctx, currentBrush with
  | none, _ => (false, none)
  | some c, none => (false, some c)
  | some c, some brush =>
    if points.isEmpty then (false, some c)
    else
      let c := c.save
      let c := { c with t := { c.t with globalCompositeOperation := "source-over" } }
      match color with
      | none => (false, some c)
      | some (r, g, b) =>
        let colorStr := colorToStr r g b
        let c :=
          if brush.family = "liner" then
            applyLinerBrush c points colorStr brush.size brush.opacity
              brush.pressureSensitivity
          else if brush.family = "shader" then
            applyShaderBrush jsSqrt rand c points colorStr brush.size brush.opacity
              brush.spacing brush.scatter brush.pressureSensitivity
          else if brush.family = "specialized" then
            applySpecializedBrush jsSqrt rand c points colorStr brush.size brush.opacity
              brush.spacing brush.scatter brush.pressureSensitivity brush.id
          else
            applyDefaultBrush c points colorStr brush.size brush.opacity
        (true, some c.restore)

/-! ### Helper lemmas -/

theorem lookup_mem {α β : Type} [BEq α] [LawfulBEq α] {k : α} {v : β} {l : List (α × β)}
    (h : List.lookup k l = some v) : (k, v) ∈ l := by
  induction l with
  | nil => simp [List.lookup] at h
  | cons p rest ih =>
    obtain ⟨a, b⟩ := p
    rw [List.lookup] at h
    cases hbeq : k == a with
    | true =>
      rw [hbeq] at h
      obtain rfl : b = v := by simpa using h
      have hka : k = a := eq_of_beq hbeq
      subst hka
      exact List.mem_cons_self _ _
    | false =>
      rw [hbeq] at h
      exact List.mem_cons_of_mem _ (ih h)

/-- Membership characterization of the full brush catalog: a successful
two-level lookup lands on one of the six presets. -/
theorem brushPresets_cases {category brushId : String} {cat : List (String × BrushPreset)}
    {p : BrushPreset}
    (hc : List.lookup category brushPresets = some cat)
    (hb : List.lookup brushId cat = some p) :
    p.subscription = "free" ∨ p.subscription = "pro" := by
  have hmem := lookup_mem hc
  simp only [brushPresets, List.mem_cons, List.not_mem_nil, or_false,
    Prod.mk.injEq] at hmem
  rcases hmem with ⟨-, rfl⟩ | ⟨-, rfl⟩ <;>
  · have hm := lookup_mem hb
    simp only [List.mem_cons, List.not_mem_nil, or_false, Prod.mk.injEq] at hm
    rcases hm with ⟨-, rfl⟩ | ⟨-, rfl⟩ | ⟨-, rfl⟩ <;> simp

/-! ### C8 — tier gating of `selectBrush` -/

/-- C8: every catalog preset with `subscription = 'free'` is selectable under
any session tier; a `'pro'` preset under `'free'` tier yields the
`subscription_required` denial carrying non-null upgrade content and under
`'pro'` tier is selectable; concretely, `selectBrush('advanced','shader3RS')`
under `'free'` is denied with upgrade title "Unlock 3RS Shader Brush". -/
theorem C8_selectBrush_tier_gating :
    (∀ tier category brushId cat p,
      List.lookup category brushPresets = some cat →
      List.lookup brushId cat = some p →
      p.subscription = "free" →
      ∃ b, selectBrush tier category brushId = .success b) ∧
    (∀ category brushId cat p,
      List.lookup category brushPresets = some cat →
      List.lookup brushId cat = some p →
      p.subscription = "pro" →
      (∃ up, selectBrush "free" category brushId =
        .failure "subscription_required" "This brush requires a Pro subscription" (some up)) ∧
      ∃ b, selectBrush "pro" category brushId = .success b) ∧
    selectBrush "free" "advanced" "shader3RS" =
      .failure "subscription_required" "This brush requires a Pro subscription"
        (some (getUpgradePrompt "shader3RS")) ∧
    (getUpgradePrompt "shader3RS").title = "Unlock 3RS Shader Brush" := by
  refine ⟨?_, ?_, ?_, ?_⟩
  · intro tier category brushId cat p hc hb hfree
    simp only [selectBrush, hc, hb]
    rw [if_neg (by simp [hfree])]
    exact ⟨_, rfl⟩
  · intro category brushId cat p hc hb hpro
    constructor
    · simp only [selectBrush, hc, hb]
      rw [if_pos ⟨hpro, by decide⟩]
      exact ⟨_, rfl⟩
    · simp only [selectBrush, hc, hb]
      rw [if_neg (by simp)]
      exact ⟨_, rfl⟩
  · rfl
  · rfl

/-- Witness for C8 at concrete inputs: the free preset `standardLiner` is
selectable under the free tier, and the pro preset `shader3RS` is denied
under free and granted under pro. -/
theorem C8_selectBrush_tier_gating_witness :
    (∃ b, selectBrush "free" "basic" "standardLiner" = .success b) ∧
    (∃ up, selectBrush "free" "advanced" "shader3RS" =
      .failure "subscription_required" "This brush requires a Pro subscription" (some up)) ∧
    ∃ b, selectBrush "pro" "advanced" "shader3RS" = .success b := by
  refine ⟨C8_selectBrush_tier_gating.1 "free" "basic" "standardLiner" _ _ rfl rfl rfl, ?_, ?_⟩
  · exact (C8_selectBrush_tier_gating.2.1 "advanced" "shader3RS" _ _ rfl rfl rfl).1
  · exact (C8_selectBrush_tier_gating.2.1 "advanced" "shader3RS" _ _ rfl rfl rfl).2

/-! ### C9 — symmetry score range and default fallback -/

/-- The clamp-then-round pipeline of the symmetry score stays in `[0,100]`. -/
theorem jsRound_clamp_mem (x : ℚ) :
    0 ≤ jsRound (max 0 (min 100 x)) ∧ jsRound (max 0 (min 100 x)) ≤ 100 := by
  unfold jsRound
  constructor
  · apply Int.le_floor.mpr
    have := le_max_left (0 : ℚ) (min 100 x)
    push_cast
    linarith
  · have h1 : max 0 (min 100 x) ≤ 100 := max_le (by norm_num) (min_le_left _ _)
    have h2 : (⌊max 0 (min 100 x) + 1/2⌋ : ℤ) ≤ ⌊(100 : ℚ) + 1/2⌋ :=
      Int.floor_le_floor (by linarith)
    have h3 : (⌊(100 : ℚ) + 1/2⌋ : ℤ) = 100 := by norm_num
    omega

/-- C9: the symmetry score is always an integer in `[0, 100]`, and equals the
fixed default `80` whenever any of the three required symmetry reference
points (mid-forehead, nose tip, mid-chin) is missing. -/
theorem C9_symmetry_score_range_and_default (d2l : P2 → LineSeg → ℚ) (lm : Landmarks) :
    (0 ≤ calculateSymmetryScore d2l lm ∧ calculateSymmetryScore d2l lm ≤ 100) ∧
    ((lm.midForehead = none ∨ lm.noseTip = none ∨ lm.midChin = none) →
      calculateSymmetryScore d2l lm = 80) := by
  rcases hmf : lm.midForehead with _ | mf
  · constructor
    · unfold calculateSymmetryScore
      rw [hmf]
      exact ⟨by norm_num, by norm_num⟩
    · intro _
      unfold calculateSymmetryScore
      rw [hmf]
  all_goals rcases hnt : lm.noseTip with _ | nt
  · constructor
    · unfold calculateSymmetryScore
      rw [hmf, hnt]
      exact ⟨by norm_num, by norm_num⟩
    · intro _
      unfold calculateSymmetryScore
      rw [hmf, hnt]
  all_goals rcases hmc : lm.midChin with _ | mc
  · constructor
    · unfold calculateSymmetryScore
      rw [hmf, hnt, hmc]
      exact ⟨by norm_num, by norm_num⟩
    · intro _
      unfold calculateSymmetryScore
      rw [hmf, hnt, hmc]
  · constructor
    · unfold calculateSymmetryScore
      rw [hmf, hnt, hmc]
      simp only []
      split_ifs with h
      all_goals first
        | exact jsRound_clamp_mem _
        | (refine ⟨?_, ?_⟩ <;> norm_num)
    · intro h
      rcases h with h | h | h <;> simp_all

/-- Witness for C9: a landmark set missing the mid-forehead reference point
scores exactly the default 80. -/
theorem C9_symmetry_score_witness :
    calculateSymmetryScore (fun _ _ => 0) ⟨[], [], [], none, some ⟨0, 0⟩, some ⟨0, 1⟩⟩ = 80 :=
  (C9_symmetry_score_range_and_default (fun _ _ => 0)
    ⟨[], [], [], none, some ⟨0, 0⟩, some ⟨0, 1⟩⟩).2 (Or.inl rfl)

/-! ### Save-stack preservation: the appliers never touch the save stack -/

@[simp] theorem drawDot_saveStack (c : Ctx) (x y s : ℚ) (col : String) (a : ℚ) :
    (drawDot c x y s col a).saveStack = c.saveStack := rfl

@[simp] theorem drawTripleDot_saveStack (c : Ctx) (x y s : ℚ) (col : String) (a r : ℚ) :
    (drawTripleDot c x y s col a r).saveStack = c.saveStack := rfl

theorem foldl_drawDot_saveStack (cs : String) :
    ∀ (l : List Dab) (c : Ctx),
      (l.foldl (fun c d => drawDot c d.x d.y d.size cs d.alpha) c).saveStack = c.saveStack := by
  intro l
  induction l with
  | nil => intro c; rfl
  | cons d rest ih => intro c; rw [List.foldl_cons, ih]; rfl

theorem foldl_drawTripleDot_saveStack (cs : String) :
    ∀ (l : List TDab) (c : Ctx),
      (l.foldl (fun c d => drawTripleDot c d.x d.y d.size cs d.alpha d.rnd) c).saveStack
        = c.saveStack := by
  intro l
  induction l with
  | nil => intro c; rfl
  | cons d rest ih => intro c; rw [List.foldl_cons, ih]; rfl

theorem applyLinerBrush_saveStack (c : Ctx) (pts : List Pt) (cs : String) (sz op ps : ℚ) :
    (applyLinerBrush c pts cs sz op ps).saveStack = c.saveStack := by
  cases pts <;> rfl

theorem applyDefaultBrush_saveStack (c : Ctx) (pts : List Pt) (cs : String) (sz op : ℚ) :
    (applyDefaultBrush c pts cs sz op).saveStack = c.saveStack := by
  cases pts <;> rfl

theorem applyShaderBrush_saveStack (jsSqrt : ℚ → ℚ) (rand : ℕ → ℚ) (c : Ctx) (pts : List Pt)
    (cs : String) (sz op sp sc ps : ℚ) :
    (applyShaderBrush jsSqrt rand c pts cs sz op sp sc ps).saveStack = c.saveStack := by
  cases pts with
  | nil => rfl
  | cons p0 rest => rw [applyShaderBrush, foldl_drawDot_saveStack]; rfl

theorem apply3RSShader_saveStack (jsSqrt : ℚ → ℚ) (rand : ℕ → ℚ) (c : Ctx) (pts : List Pt)
    (cs : String) (sz op sp sc ps : ℚ) :
    (apply3RSShader jsSqrt rand c pts cs sz op sp sc ps).saveStack = c.saveStack := by
  cases pts with
  | nil => rfl
  | cons p0 rest => rw [apply3RSShader, foldl_drawTripleDot_saveStack]; rfl

theorem applyOmbreLipOutline_saveStack (c : Ctx) (pts : List Pt) (cs : String) (sz op ps : ℚ) :
    (applyOmbreLipOutline c pts cs sz op ps).saveStack = c.saveStack := by
  rw [applyOmbreLipOutline.eq_def]
  split_ifs
  · rfl
  · cases pts <;> rfl

theorem applyMicrobladeNatural_saveStack (jsSqrt : ℚ → ℚ) (c : Ctx) (pts : List Pt)
    (cs : String) (sz op ps : ℚ) :
    (applyMicrobladeNatural jsSqrt c pts cs sz op ps).saveStack = c.saveStack := by
  rw [applyMicrobladeNatural.eq_def]
  split_ifs
  · rfl
  · cases pts <;> rfl

theorem applySpecializedBrush_saveStack (jsSqrt : ℚ → ℚ) (rand : ℕ → ℚ) (c : Ctx)
    (pts : List Pt) (cs : String) (sz op sp sc ps : ℚ) (bid : String) :
    (applySpecializedBrush jsSqrt rand c pts cs sz op sp sc ps bid).saveStack = c.saveStack := by
  rw [applySpecializedBrush]
  split_ifs
  · exact apply3RSShader_saveStack ..
  · exact applyOmbreLipOutline_saveStack ..
  · exact applyMicrobladeNatural_saveStack ..
  · exact applyShaderBrush_saveStack ..

/-! ### C1 — transient-state restoration across the exit paths -/

/-- A sample drawing surface with a non-default composite mode, used for the
concrete counterexamples. -/
def sampleCtx : Ctx :=
  ⟨⟨"multiply", 1, [], "stroke0", "fill0", 1, "butt", "miter"⟩, [], []⟩

/-- A sample selected brush (any family works for the exception path: the
throw happens before the dispatch reads the family). -/
def sampleBrush : CurrentBrush :=
  { name := "Standard Shader", family := "shader", size := 3, opacity := 8/10,
    spacing := 15/100, scatter := 1/10, pressureSensitivity := 8/10,
    subscription := "free", id := "standardShader", category := "basic" }

/-- C1 counterexample: a render that fails mid-`try` (null color throws after
`save()` and the composite-mode write) returns `false` but leaves the
surface's composite mode set to `'source-over'` (it was `'multiply'`) and the
saved snapshot un-popped — the transient state is *not* as it was before the
call. -/
theorem C1_restore_counterexample :
    (applyBrushStroke (fun q => q) (fun _ => 0) (some sampleCtx) [⟨0, 0, 1⟩]
        none (some sampleBrush)).1 = false ∧
    (applyBrushStroke (fun q => q) (fun _ => 0) (some sampleCtx) [⟨0, 0, 1⟩]
        none (some sampleBrush)).2.map (fun c => c.t.globalCompositeOperation)
      = some "source-over" ∧
    sampleCtx.t.globalCompositeOperation = "multiply" ∧
    (applyBrushStroke (fun q => q) (fun _ => 0) (some sampleCtx) [⟨0, 0, 1⟩]
        none (some sampleBrush)).2 ≠ some sampleCtx := by
  refine ⟨rfl, rfl, rfl, ?_⟩
  decide

/-- C1 amended: the three guarded failure exits (missing surface, empty
stroke, no selected preset) occur before any mutation and leave the surface
exactly as found, and a successful render restores the transient state and
the save stack exactly; but the exception exit (null color, thrown after
`save()` and the composite-mode write) returns `false` with the composite
mode left at `'source-over'` and the saved snapshot still on the stack. -/
theorem C1_transient_state_exits (jsSqrt : ℚ → ℚ) (rand : ℕ → ℚ) :
    (∀ pts col br, applyBrushStroke jsSqrt rand none pts col br = (false, none)) ∧
    (∀ c col br, applyBrushStroke jsSqrt rand (some c) [] col br = (false, some c)) ∧
    (∀ c pts col, applyBrushStroke jsSqrt rand (some c) pts col none = (false, some c)) ∧
    (∀ c pts col br, pts ≠ [] →
      ∃ c', applyBrushStroke jsSqrt rand (some c) pts (some col) (some br) = (true, some c') ∧
        c'.t = c.t ∧ c'.saveStack = c.saveStack) ∧
    (∀ c pts br, pts ≠ [] →
      applyBrushStroke jsSqrt rand (some c) pts none (some br) =
        (false, some ⟨{ c.t with globalCompositeOperation := "source-over" },
                      c.t :: c.saveStack, c.ops⟩)) := by
  refine ⟨fun _ _ br => by cases br <;> rfl, fun _ _ br => by cases br <;> rfl,
    ?_, ?_, ?_⟩
  · intro c pts col
    rw [applyBrushStroke]
  · intro c pts col br hne
    obtain ⟨p0, rest, rfl⟩ : ∃ p0 rest, pts = p0 :: rest := by
      cases pts with
      | nil => exact absurd rfl hne
      | cons a l => exact ⟨a, l, rfl⟩
    obtain ⟨r, g, b⟩ := col
    rw [applyBrushStroke]
    simp only [List.isEmpty_cons, if_false, Bool.false_eq_true]
    refine ⟨_, rfl, ?_⟩
    set c2 := (if br.family = "liner" then _ else _) with hc2
    have hstack : c2.saveStack = ({ Ctx.save c with
        t := { (Ctx.save c).t with globalCompositeOperation := "source-over" } } : Ctx).saveStack := by
      rw [hc2]
      split_ifs
      · exact applyLinerBrush_saveStack ..
      · exact applyShaderBrush_saveStack ..
      · exact applySpecializedBrush_saveStack ..
      · exact applyDefaultBrush_saveStack ..
    have hstack' : c2.saveStack = c.t :: c.saveStack := hstack
    rw [Ctx.restore, hstack']
    exact ⟨rfl, rfl⟩
  · intro c pts br hne
    obtain ⟨p0, rest, rfl⟩ : ∃ p0 rest, pts = p0 :: rest := by
      cases pts with
      | nil => exact absurd rfl hne
      | cons a l => exact ⟨a, l, rfl⟩
    rw [applyBrushStroke]
    simp only [List.isEmpty_cons, if_false, Bool.false_eq_true]
    rfl

/-- Witness for C1 at concrete inputs: a successful shader render on a
two-point stroke restores the transient state and save stack of the sample
surface. -/
theorem C1_transient_state_exits_witness :
    ∃ c', applyBrushStroke (fun q => q) (fun _ => 0) (some sampleCtx)
        [⟨0, 0, 1⟩, ⟨5, 0, 1⟩] (some (0, 0, 0)) (some sampleBrush) = (true, some c') ∧
      c'.t = sampleCtx.t ∧ c'.saveStack = sampleCtx.saveStack :=
  (C1_transient_state_exits (fun q => q) (fun _ => 0)).2.2.2.1 sampleCtx
    [⟨0, 0, 1⟩, ⟨5, 0, 1⟩] (0, 0, 0) sampleBrush (by decide)

/-! ### C3 — fallbacks for unrecognized families and variants -/

/-- A specialized brush whose variant id is not one of the three recognized
ones. -/
def sampleUnknownVariantBrush : CurrentBrush :=
  { name := "Future Brush", family := "specialized", size := 3, opacity := 85/100,
    spacing := 12/100, scatter := 8/100, pressureSensitivity := 9/10,
    subscription := "pro", id := "futureBrush", category := "advanced" }

/-- C3 counterexample: a single-point stroke rendered with a `specialized`
preset whose variant id is unrecognized draws a *dab* (the Shader fallback's
initial dot), not a plain constant-width stroked path — the plain-path
fallback on the same stroke would emit a `path` op, as the third conjunct
shows. -/
theorem C3_unknown_variant_counterexample :
    (applyBrushStroke (fun q => q) (fun _ => 0) (some sampleCtx) [⟨0, 0, 0⟩]
        (some (0, 0, 0)) (some sampleUnknownVariantBrush)).1 = true ∧
    (applyBrushStroke (fun q => q) (fun _ => 0) (some sampleCtx) [⟨0, 0, 0⟩]
        (some (0, 0, 0)) (some sampleUnknownVariantBrush)).2.map Ctx.ops
      = some [DrawOp.dab 0 0 (3/2) (85/100)] ∧
    (applyDefaultBrush sampleCtx [⟨0, 0, 0⟩] "rgba(0, 0, 0, 1)" 3 (85/100)).ops
      = [DrawOp.path 0 0 [] (85/100)] ∧
    some [DrawOp.dab 0 0 (3/2) (85/100)] ≠ some [DrawOp.path 0 0 [] (85/100)] := by
  refine ⟨rfl, rfl, rfl, by decide⟩

/-- C3 amended: an unrecognized *family* draws the plain constant-width,
constant-opacity path through all points and succeeds; a `specialized` preset
with an unrecognized *variant id* instead falls back to the Shader stippled
algorithm (dabs), also succeeding. -/
theorem C3_fallback_dispatch (jsSqrt : ℚ → ℚ) (rand : ℕ → ℚ) (c : Ctx) (p0 : Pt)
    (rest : List Pt) (col : ℤ × ℤ × ℤ) (br : CurrentBrush) :
    (br.family ≠ "liner" → br.family ≠ "shader" → br.family ≠ "specialized" →
      ∃ c', applyBrushStroke jsSqrt rand (some c) (p0 :: rest) (some col) (some br)
          = (true, some c') ∧
        c'.ops = c.ops ++
          [.path p0.x p0.y (rest.map fun p => (p.x, p.y, br.size)) br.opacity] ∧
        c'.t = c.t) ∧
    (br.family = "specialized" → br.id ≠ "shader3RS" → br.id ≠ "ombreLipOutline" →
      br.id ≠ "microbladeNatural" →
      applyBrushStroke jsSqrt rand (some c) (p0 :: rest) (some col) (some br) =
        (true, some (Ctx.restore (applyShaderBrush jsSqrt rand
          ⟨{ c.t with globalCompositeOperation := "source-over" }, c.t :: c.saveStack, c.ops⟩
          (p0 :: rest) (colorToStr col.1 col.2.1 col.2.2)
          br.size br.opacity br.spacing br.scatter br.pressureSensitivity)))) := by
  obtain ⟨r, g, b⟩ := col
  constructor
  · intro h1 h2 h3
    rw [applyBrushStroke]
    simp only [List.isEmpty_cons, if_false, Bool.false_eq_true]
    rw [if_neg h1, if_neg h2, if_neg h3]
    refine ⟨_, rfl, ?_, ?_⟩
    · rw [applyDefaultBrush]
      rw [Ctx.restore]
      rfl
    · rw [applyDefaultBrush]
      rw [Ctx.restore]
      rfl
  · intro hf h1 h2 h3
    rw [applyBrushStroke]
    simp only [List.isEmpty_cons, if_false, Bool.false_eq_true]
    rw [if_neg (by rw [hf]; decide), if_neg (by rw [hf]; decide), if_pos hf]
    rw [applySpecializedBrush, if_neg h1, if_neg h2, if_neg h3]
    rfl

/-- Witness for C3 at concrete inputs: a brush of unknown family `'airbrush'`
on a two-point stroke draws one plain path and succeeds. -/
theorem C3_fallback_dispatch_witness :
    ∃ c', applyBrushStroke (fun q => q) (fun _ => 0) (some sampleCtx)
        [⟨0, 0, 1⟩, ⟨5, 0, 1⟩] (some (0, 0, 0))
        (some { sampleBrush with family := "airbrush" }) = (true, some c') ∧
      c'.ops = sampleCtx.ops ++ [.path 0 0 [(5, 0, 3)] (8/10)] ∧
      c'.t = sampleCtx.t := by
  have h := (C3_fallback_dispatch (fun q => q) (fun _ => 0) sampleCtx ⟨0, 0, 1⟩
    [⟨5, 0, 1⟩] (0, 0, 0) { sampleBrush with family := "airbrush" }).1
    (by decide) (by decide) (by decide)
  obtain ⟨c', hres, hops, ht⟩ := h
  exact ⟨c', hres, by rw [hops]; rfl, ht⟩

/-! ### C10 — unconditional initial dab of the stippled families -/

@[simp] theorem restore_ops (c : Ctx) : (Ctx.restore c).ops = c.ops := by
  rw [Ctx.restore]
  cases c.saveStack <;> rfl

theorem foldl_drawDot_ops (cs : String) :
    ∀ (l : List Dab) (c : Ctx),
      (l.foldl (fun c d => drawDot c d.x d.y d.size cs d.alpha) c).ops
        = c.ops ++ l.map (fun d => DrawOp.dab d.x d.y (d.size / 2) d.alpha) := by
  intro l
  induction l with
  | nil => intro c; simp
  | cons d rest ih =>
    intro c
    rw [List.foldl_cons, ih]
    simp [drawDot]

theorem foldl_drawTripleDot_ops (cs : String) :
    ∀ (l : List TDab) (c : Ctx),
      (l.foldl (fun c d => drawTripleDot c d.x d.y d.size cs d.alpha d.rnd) c).ops
        = c.ops ++ l.flatMap (fun d =>
            [DrawOp.dab d.x d.y (d.size / 2) d.alpha,
             DrawOp.satPair d.x d.y d.size d.alpha d.rnd]) := by
  intro l
  induction l with
  | nil => intro c; simp
  | cons d rest ih =>
    intro c
    rw [List.foldl_cons, ih]
    simp [drawTripleDot, drawDot]

/-- C10: for any non-empty stroke, the Shader family and the `shader3RS`
variant unconditionally draw an initial dab (resp. triple-dab) centered
exactly at the first point with radius `size/2` and alpha exactly the preset
`opacity` — no pressure, jitter or distance gate applies to it — and the
render returns `true`; on a single-point stroke this initial stamp is the
only one. -/
theorem C10_initial_dab_unconditional (jsSqrt : ℚ → ℚ) (rand : ℕ → ℚ) (c : Ctx)
    (p0 : Pt) (rest : List Pt) (col : ℤ × ℤ × ℤ) (br : CurrentBrush) :
    (br.family = "shader" →
      ∃ c' tail, applyBrushStroke jsSqrt rand (some c) (p0 :: rest) (some col) (some br)
          = (true, some c') ∧
        c'.ops = c.ops ++ DrawOp.dab p0.x p0.y (br.size / 2) br.opacity :: tail ∧
        (rest = [] → tail = [])) ∧
    (br.family = "specialized" → br.id = "shader3RS" →
      ∃ c' tail, applyBrushStroke jsSqrt rand (some c) (p0 :: rest) (some col) (some br)
          = (true, some c') ∧
        c'.ops = c.ops ++ DrawOp.dab p0.x p0.y (br.size / 2) br.opacity
          :: DrawOp.satPair p0.x p0.y br.size br.opacity (rand 0) :: tail ∧
        (rest = [] → tail = [])) := by
  obtain ⟨r, g, b⟩ := col
  constructor
  · intro hf
    rw [applyBrushStroke]
    simp only [List.isEmpty_cons, if_false, Bool.false_eq_true]
    rw [if_neg (by rw [hf]; decide), if_pos hf]
    refine ⟨_,
      (shaderDabs (fun i => (p0 :: rest).getD i p0) br.size br.opacity br.scatter
        br.pressureSensitivity (br.size * br.spacing) jsSqrt rand
        ((p0 :: rest).length - 1) 1 p0.x p0.y 0).map
        (fun d => DrawOp.dab d.x d.y (d.size / 2) d.alpha),
      rfl, ?_, ?_⟩
    · rw [restore_ops, applyShaderBrush, foldl_drawDot_ops]
      simp [drawDot, Ctx.save]
    · intro hrest
      subst hrest
      rfl
  · intro hf hid
    rw [applyBrushStroke]
    simp only [List.isEmpty_cons, if_false, Bool.false_eq_true]
    rw [if_neg (by rw [hf]; decide), if_neg (by rw [hf]; decide), if_pos hf]
    rw [applySpecializedBrush, if_pos hid]
    refine ⟨_,
      (shader3RSDabs (fun i => (p0 :: rest).getD i p0) br.size br.opacity br.scatter
        br.pressureSensitivity (br.size * br.spacing) jsSqrt rand
        ((p0 :: rest).length - 1) 1 p0.x p0.y 1).flatMap
        (fun d => [DrawOp.dab d.x d.y (d.size / 2) d.alpha,
                   DrawOp.satPair d.x d.y d.size d.alpha d.rnd]),
      rfl, ?_, ?_⟩
    · rw [restore_ops, apply3RSShader, foldl_drawTripleDot_ops]
      simp [drawTripleDot, drawDot, Ctx.save]
    · intro hrest
      subst hrest
      rfl

/-- The 3RS Shader preset as a selected brush. -/
def sample3RSBrush : CurrentBrush :=
  { name := "3RS Shader", family := "specialized", size := 3, opacity := 85/100,
    spacing := 12/100, scatter := 8/100, pressureSensitivity := 9/10,
    subscription := "pro", id := "shader3RS", category := "advanced" }

/-- Witness for C10 at concrete inputs: single-point strokes under the
Standard Shader preset and the 3RS variant render exactly the initial dab,
resp. the initial triple-dab, and return true. -/
theorem C10_initial_dab_witness :
    (∃ c', applyBrushStroke (fun q => q) (fun _ => 1/4) (some sampleCtx) [⟨2, 3, 1/2⟩]
        (some (0, 0, 0)) (some sampleBrush) = (true, some c') ∧
      c'.ops = sampleCtx.ops ++ [DrawOp.dab 2 3 (3/2) (8/10)]) ∧
    (∃ c', applyBrushStroke (fun q => q) (fun _ => 1/4) (some sampleCtx) [⟨2, 3, 1/2⟩]
        (some (0, 0, 0)) (some sample3RSBrush) = (true, some c') ∧
      c'.ops = sampleCtx.ops ++
        [DrawOp.dab 2 3 (3/2) (85/100), DrawOp.satPair 2 3 3 (85/100) (1/4)]) := by
  constructor
  · obtain ⟨c', tail, hres, hops, htail⟩ :=
      (C10_initial_dab_unconditional (fun q => q) (fun _ => 1/4) sampleCtx ⟨2, 3, 1/2⟩ []
        (0, 0, 0) sampleBrush).1 rfl
    exact ⟨c', hres, by rw [hops, htail rfl]; rfl⟩
  · obtain ⟨c', tail, hres, hops, htail⟩ :=
      (C10_initial_dab_unconditional (fun q => q) (fun _ => 1/4) sampleCtx ⟨2, 3, 1/2⟩ []
        (0, 0, 0) sample3RSBrush).2 rfl rfl
    exact ⟨c', hres, by rw [hops, htail rfl]; rfl⟩

/-! ### C2 — gradient-outline alpha profile -/

/-- The alpha component of one gradient-outline segment record. -/
def ombreAlpha (s : ℚ × ℚ × ℚ × ℚ × ℚ × ℚ) : ℚ := s.2.2.2.2.2

/-- Per-index alpha of the gradient-outline segments: segment `j` (0-based;
loop index `i₀ + j`) carries alpha
`opacity * (1 - ((i₀+j)/nQ) * 0.3) * pressure`. -/
theorem ombreSegs_alpha_get (size opacity ps nQ : ℚ) :
    ∀ (rest : List Pt) (i : ℕ) (prev : Pt) (j : ℕ) (hj : j < rest.length),
      ((ombreSegs size opacity ps nQ i prev rest).map ombreAlpha).get? j =
        some (opacity * (1 - (((i : ℚ) + (j : ℚ)) / nQ) * (3/10)) * press (rest.get ⟨j, hj⟩)) := by
  intro rest
  induction rest with
  | nil => intro i prev j hj; exact absurd hj (by simp)
  | cons p rest' ih =>
    intro i prev j hj
    cases j with
    | zero =>
      simp [ombreSegs, ombreAlpha]
    | succ j' =>
      have hj' : j' < rest'.length := by simpa using hj
      have := ih (i + 1) p j' hj'
      rw [ombreSegs]
      simp only [List.map_cons, List.get?_cons_succ, List.get_cons_succ]
      rw [this]
      congr 2
      push_cast
      ring_nf

/-- C2 amended: under constant pressure the gradient-outline alpha at drawn
segment `j` (0-based, `m = n-1` segments) is
`opacity * (1 - ((j+1)/m) * 0.3) * pressure`, which is the linear
interpolation, in the fractional position `(j+1)/m`, between `opacity *
pressure` (position 0) and `opacity * 0.7 * pressure` (position 1); the last
drawn segment therefore carries exactly `opacity * 0.7 * pressure`, while the
*first drawn* segment sits at position `1/m` and carries
`opacity * (1 - 0.3/m) * pressure`, not `opacity * pressure`. -/
theorem C2_ombre_alpha_profile (c : Ctx) (colorStr : String) (size opacity ps : ℚ)
    (p0 : Pt) (rest : List Pt) (pc : ℚ)
    (hne : rest ≠ [])
    (hpress : ∀ p ∈ rest, press p = pc) :
    (applyOmbreLipOutline c (p0 :: rest) colorStr size opacity ps).ops =
      c.ops ++ (ombreSegs size opacity ps ((((p0 :: rest).length : ℚ)) - 1) 1 p0 rest).map
        (fun s => DrawOp.seg s.1 s.2.1 s.2.2.1 s.2.2.2.1 s.2.2.2.2.1 s.2.2.2.2.2) ∧
    (∀ (j : ℕ) (hj : j < rest.length),
      ((ombreSegs size opacity ps (((p0 :: rest).length : ℚ) - 1) 1 p0 rest).map
          ombreAlpha).get? j =
        some (opacity * (1 - (((j : ℚ) + 1) / (rest.length : ℚ)) * (3/10)) * pc)) ∧
    (∀ (j : ℕ) (hj : j < rest.length),
      opacity * (1 - (((j : ℚ) + 1) / (rest.length : ℚ)) * (3/10)) * pc =
        (1 - ((j : ℚ) + 1) / (rest.length : ℚ)) * (opacity * pc) +
          (((j : ℚ) + 1) / (rest.length : ℚ)) * (opacity * (7/10) * pc)) ∧
    ((ombreSegs size opacity ps (((p0 :: rest).length : ℚ) - 1) 1 p0 rest).map
        ombreAlpha).get? (rest.length - 1) = some (opacity * (7/10) * pc) ∧
    ((ombreSegs size opacity ps (((p0 :: rest).length : ℚ) - 1) 1 p0 rest).map
        ombreAlpha).get? 0 =
      some (opacity * (1 - (3/10) / (rest.length : ℚ)) * pc) := by
  have hlen0 : 0 < rest.length := List.length_pos.mpr hne
  have hcast : ((p0 :: rest).length : ℚ) - 1 = (rest.length : ℚ) := by
    simp
  have hlenQ : (rest.length : ℚ) ≠ 0 := by
    exact_mod_cast Nat.pos_iff_ne_zero.mp hlen0
  have halpha : ∀ (j : ℕ) (hj : j < rest.length),
      ((ombreSegs size opacity ps (((p0 :: rest).length : ℚ) - 1) 1 p0 rest).map
          ombreAlpha).get? j =
        some (opacity * (1 - (((j : ℚ) + 1) / (rest.length : ℚ)) * (3/10)) * pc) := by
    intro j hj
    rw [hcast, ombreSegs_alpha_get size opacity ps (rest.length : ℚ) rest 1 p0 j hj,
      hpress _ (rest.get_mem _ _)]
    congr 3
    push_cast
    ring
  refine ⟨?_, halpha, ?_, ?_, ?_⟩
  · rw [applyOmbreLipOutline.eq_def]
    rw [if_neg (by simp only [List.length_cons]; omega)]
  · intro j hj
    field_simp
    ring
  · have := halpha (rest.length - 1) (by omega)
    rw [this]
    congr 1
    have hc : ((rest.length - 1 : ℕ) : ℚ) + 1 = (rest.length : ℚ) := by
      have : (1 : ℕ) ≤ rest.length := hlen0
      push_cast [Nat.cast_sub this]
      ring
    rw [hc, div_self hlenQ]
    ring
  · have := halpha 0 hlen0
    rw [this]
    congr 1
    push_cast
    ring

/-- C2 counterexample: on the two-point stroke `[(0,0),(1,0)]` with pressure
1 and `opacity = 0.9`, the single (hence first) drawn segment of the
gradient outline carries alpha `0.63 = opacity * 0.7 * pressure`, not
`opacity * pressure = 0.9` as the claim states for the first segment. -/
theorem C2_first_segment_alpha_counterexample :
    (applyOmbreLipOutline sampleCtx [⟨0, 0, 1⟩, ⟨1, 0, 1⟩] "rgba(0, 0, 0, 1)"
        2 (9/10) 0).ops = [DrawOp.seg 0 0 1 0 2 (63/100)] ∧
    (63/100 : ℚ) ≠ (9/10) * 1 := by
  constructor
  · simp only [applyOmbreLipOutline, ombreSegs, press, sampleCtx]
    norm_num
  · norm_num

/-- Witness for C2 at concrete inputs: a four-point constant-pressure stroke
has first drawn segment alpha `0.9*(1 - 0.1)`, last drawn segment alpha
`0.9*0.7`, and the linear law in between. -/
theorem C2_ombre_alpha_profile_witness :
    ((ombreSegs (2 : ℚ) (9/10) 0 ((([⟨0,0,1⟩, ⟨1,0,1⟩, ⟨2,0,1⟩, ⟨3,0,1⟩] : List Pt).length : ℚ) - 1)
        1 ⟨0, 0, 1⟩ [⟨1,0,1⟩, ⟨2,0,1⟩, ⟨3,0,1⟩]).map ombreAlpha).get? 2 =
      some ((9/10) * (7/10) * 1) ∧
    ((ombreSegs (2 : ℚ) (9/10) 0 ((([⟨0,0,1⟩, ⟨1,0,1⟩, ⟨2,0,1⟩, ⟨3,0,1⟩] : List Pt).length : ℚ) - 1)
        1 ⟨0, 0, 1⟩ [⟨1,0,1⟩, ⟨2,0,1⟩, ⟨3,0,1⟩]).map ombreAlpha).get? 0 =
      some ((9/10) * (1 - (3/10) / (([⟨1,0,1⟩, ⟨2,0,1⟩, ⟨3,0,1⟩] : List Pt).length : ℚ)) * 1) := by
  have h := C2_ombre_alpha_profile sampleCtx "rgba(0, 0, 0, 1)" 2 (9/10) 0
    ⟨0, 0, 1⟩ [⟨1,0,1⟩, ⟨2,0,1⟩, ⟨3,0,1⟩] 1 (by decide)
    (by intro p hp; fin_cases hp <;> rfl)
  exact ⟨h.2.2.2.1, h.2.2.2.2⟩

/-! ### C6 — jitter amplitude bounds -/

/-- C6: with the random source in `[0,1)`, every stamped Shader dab is
jittered by at most `scatter * size` per axis, every stamped 3RS triple-dab
by at most `scatter * size / 2` per axis (half the Shader amplitude), and
`scatter = 0` yields exactly zero jitter in both families. -/
theorem C6_jitter_amplitude (P : ℕ → Pt) (size opacity scatter ps minD : ℚ)
    (jsSqrt : ℚ → ℚ) (rand : ℕ → ℚ)
    (hrand : ∀ m, 0 ≤ rand m ∧ rand m < 1)
    (hsc : 0 ≤ scatter) (hsz : 0 ≤ size) :
    (∀ fuel i lx ly k d,
      d ∈ shaderDabs P size opacity scatter ps minD jsSqrt rand fuel i lx ly k →
      |d.x - (P d.idx).x| ≤ scatter * size ∧ |d.y - (P d.idx).y| ≤ scatter * size ∧
      (scatter = 0 → d.x = (P d.idx).x ∧ d.y = (P d.idx).y)) ∧
    (∀ fuel i lx ly k d,
      d ∈ shader3RSDabs P size opacity scatter ps minD jsSqrt rand fuel i lx ly k →
      |d.x - (P d.idx).x| ≤ scatter * size / 2 ∧ |d.y - (P d.idx).y| ≤ scatter * size / 2 ∧
      (scatter = 0 → d.x = (P d.idx).x ∧ d.y = (P d.idx).y)) := by
  constructor
  · intro fuel
    induction fuel with
    | zero =>
      intro i lx ly k d hd
      rw [shaderDabs] at hd
      exact absurd hd (List.not_mem_nil d)
    | succ n ih =>
      intro i lx ly k d hd
      rw [shaderDabs] at hd
      by_cases hgate : minD ≤ jsSqrt (((P i).x - lx) * ((P i).x - lx) + ((P i).y - ly) * ((P i).y - ly))
      · rw [if_pos hgate] at hd
        rcases List.mem_cons.mp hd with rfl | hd'
        · obtain ⟨hk0, hk1⟩ := hrand k
          obtain ⟨hk0', hk1'⟩ := hrand (k + 1)
          refine ⟨?_, ?_, ?_⟩
          · simp only [add_sub_cancel_left]
            rw [abs_le]
            constructor <;>
              nlinarith [mul_nonneg (mul_nonneg hk0 hsc) hsz,
                mul_nonneg (mul_nonneg (by linarith : (0:ℚ) ≤ 1 - rand k) hsc) hsz]
          · simp only [add_sub_cancel_left]
            rw [abs_le]
            constructor <;>
              nlinarith [mul_nonneg (mul_nonneg hk0' hsc) hsz,
                mul_nonneg (mul_nonneg (by linarith : (0:ℚ) ≤ 1 - rand (k+1)) hsc) hsz]
          · intro h0
            subst h0
            constructor <;> simp [add_sub_cancel_left]
        · exact ih (i+1) (P i).x (P i).y (k+2) d hd'
      · rw [if_neg hgate] at hd
        exact ih (i+1) lx ly k d hd
  · intro fuel
    induction fuel with
    | zero =>
      intro i lx ly k d hd
      rw [shader3RSDabs] at hd
      exact absurd hd (List.not_mem_nil d)
    | succ n ih =>
      intro i lx ly k d hd
      rw [shader3RSDabs] at hd
      by_cases hgate : minD ≤ jsSqrt (((P i).x - lx) * ((P i).x - lx) + ((P i).y - ly) * ((P i).y - ly))
      · rw [if_pos hgate] at hd
        rcases List.mem_cons.mp hd with rfl | hd'
        · obtain ⟨hk0, hk1⟩ := hrand k
          obtain ⟨hk0', hk1'⟩ := hrand (k + 1)
          refine ⟨?_, ?_, ?_⟩
          · simp only [add_sub_cancel_left]
            rw [abs_le]
            constructor <;>
              nlinarith [mul_nonneg (mul_nonneg hk0 hsc) hsz,
                mul_nonneg (mul_nonneg (by linarith : (0:ℚ) ≤ 1 - rand k) hsc) hsz]
          · simp only [add_sub_cancel_left]
            rw [abs_le]
            constructor <;>
              nlinarith [mul_nonneg (mul_nonneg hk0' hsc) hsz,
                mul_nonneg (mul_nonneg (by linarith : (0:ℚ) ≤ 1 - rand (k+1)) hsc) hsz]
          · intro h0
            subst h0
            constructor <;> simp [add_sub_cancel_left]
        · exact ih (i+1) (P i).x (P i).y (k+3) d hd'
      · rw [if_neg hgate] at hd
        exact ih (i+1) lx ly k d hd

/-- Witness for C6 at concrete inputs: the single stamped dab of a concrete
two-point shader stroke (size 3, scatter 0.1, random source constantly 0) is
jittered by exactly 3/10 per axis, within the bound `scatter * size`. -/
theorem C6_jitter_amplitude_witness :
    |(47/10 : ℚ) - 5| ≤ (1/10) * 3 ∧ |(-3/10 : ℚ) - 0| ≤ (1/10) * 3 := by
  have hl : shaderDabs (fun i => if i = 0 then (⟨0, 0, 1⟩ : Pt) else ⟨5, 0, 1⟩) 3 1 (1/10)
      (9/10) 0 (fun q => q) (fun _ => 0) 1 1 0 0 0 = [⟨1, 47/10, -3/10, 87/20, 1⟩] := by
    norm_num [shaderDabs, press]
  have h := (C6_jitter_amplitude (fun i => if i = 0 then (⟨0, 0, 1⟩ : Pt) else ⟨5, 0, 1⟩)
      3 1 (1/10) (9/10) 0 (fun q => q) (fun _ => 0)
      (fun _ => ⟨le_refl 0, by norm_num⟩) (by norm_num) (by norm_num)).1
    1 1 0 0 0 ⟨1, 47/10, -3/10, 87/20, 1⟩
    (by rw [hl]; exact List.mem_singleton.mpr rfl)
  exact ⟨by simpa using h.1, by simpa using h.2.1⟩

/-! ### C5 — microblade taper profile -/

/-- The taper-formula width at fractional traveled position `p`:
`size * 4p(1-p) * (1 + (pressure - 0.5) * pressureSensitivity)`
(source lines 579–583). -/
def taperWidth (size ps pr p : ℚ) : ℚ :=
  size * (4 * p * (1 - p)) * (1 + (pr - 1/2) * ps)

/-- Per-index width of the microblade pass: entry `j` (the `lineTo` into
sample `j+1`) has the taper-formula width at traveled position
`(curr + length of the first j+1 segments) / totalLength`. -/
theorem microbladeSegs_width_get (jsSqrt : ℚ → ℚ) (size ps total : ℚ) :
    ∀ (rest : List Pt) (curr : ℚ) (prev : Pt) (j : ℕ) (hj : j < rest.length),
      ((microbladeSegs jsSqrt size ps total curr prev rest).map (fun s => s.2.2)).get? j =
        some (taperWidth size ps (press (rest.get ⟨j, hj⟩))
          ((curr + pathLenFrom jsSqrt prev (rest.take (j + 1))) / total)) := by
  intro rest
  induction rest with
  | nil => intro curr prev j hj; exact absurd hj (by simp)
  | cons p rest' ih =>
    intro curr prev j hj
    cases j with
    | zero =>
      simp only [microbladeSegs, List.map_cons, List.get?_cons_zero, List.get_cons_zero,
        List.take_succ_cons, List.take_zero, pathLenFrom, taperWidth]
      norm_num
    | succ j' =>
      have hj' : j' < rest'.length := by simpa using hj
      have := ih (curr + segLen jsSqrt prev p) p j' hj'
      rw [microbladeSegs]
      simp only [List.map_cons, List.get?_cons_succ, List.get_cons_succ]
      rw [this]
      congr 2
      simp only [List.take_succ_cons, pathLenFrom]
      ring

/-- C5: in a microblade render under constant pressure, the width assigned
before the `lineTo` into sample `j+1` is exactly
`size * 4p(1-p) * (1 + (pressure-0.5)*pressureSensitivity)` with
`p = traveledLength/totalLength`; the taper-formula width at the first
sample (`p = 0`) is 0 and the width at the last sample (`p = 1`) is 0; and
at a sample whose fractional position is exactly `1/2` the width equals the
peak `size * (1 + (pressure-0.5)*pressureSensitivity)`, which bounds every
other computed width of that render. -/
theorem C5_microblade_taper (jsSqrt : ℚ → ℚ) (c : Ctx) (colorStr : String)
    (size opacity ps : ℚ) (p0 : Pt) (rest : List Pt) (pc : ℚ)
    (hne : rest ≠ [])
    (hpress : ∀ p ∈ rest, press p = pc)
    (htot : 0 < pathLenFrom jsSqrt p0 rest)
    (hnn : 0 ≤ size * (1 + (pc - 1/2) * ps)) :
    (applyMicrobladeNatural jsSqrt c (p0 :: rest) colorStr size opacity ps).ops =
      c.ops ++ [.path p0.x p0.y
        (microbladeSegs jsSqrt size ps (pathLenFrom jsSqrt p0 rest) 0 p0 rest) opacity] ∧
    (∀ (j : ℕ) (hj : j < rest.length),
      ((microbladeSegs jsSqrt size ps (pathLenFrom jsSqrt p0 rest) 0 p0 rest).map
          (fun s => s.2.2)).get? j =
        some (taperWidth size ps pc
          (pathLenFrom jsSqrt p0 (rest.take (j + 1)) / pathLenFrom jsSqrt p0 rest))) ∧
    taperWidth size ps pc 0 = 0 ∧
    ((microbladeSegs jsSqrt size ps (pathLenFrom jsSqrt p0 rest) 0 p0 rest).map
        (fun s => s.2.2)).get? (rest.length - 1) = some 0 ∧
    taperWidth size ps pc (1/2) = size * (1 + (pc - 1/2) * ps) ∧
    (∀ q : ℚ, taperWidth size ps pc q ≤ size * (1 + (pc - 1/2) * ps)) := by
  have hlen0 : 0 < rest.length := List.length_pos.mpr hne
  have hwidth : ∀ (j : ℕ) (hj : j < rest.length),
      ((microbladeSegs jsSqrt size ps (pathLenFrom jsSqrt p0 rest) 0 p0 rest).map
          (fun s => s.2.2)).get? j =
        some (taperWidth size ps pc
          (pathLenFrom jsSqrt p0 (rest.take (j + 1)) / pathLenFrom jsSqrt p0 rest)) := by
    intro j hj
    rw [microbladeSegs_width_get jsSqrt size ps _ rest 0 p0 j hj,
      hpress _ (rest.get_mem _ _)]
    congr 2
    ring
  refine ⟨?_, hwidth, by unfold taperWidth; ring, ?_, by unfold taperWidth; ring, ?_⟩
  · rw [applyMicrobladeNatural.eq_def]
    rw [if_neg (by simp only [List.length_cons]; omega)]
  · have := hwidth (rest.length - 1) (by omega)
    rw [this]
    congr 1
    have htake : rest.take (rest.length - 1 + 1) = rest := by
      have : rest.length - 1 + 1 = rest.length := by omega
      rw [this, List.take_length]
    rw [htake, div_self (ne_of_gt htot)]
    unfold taperWidth
    ring
  · intro q
    unfold taperWidth
    nlinarith [sq_nonneg (2 * q - 1), hnn]

/-- Witness for C5 at concrete inputs: the unit-spaced three-point stroke
`(0,0),(1,0),(2,0)` (total length 2) has its midpoint sample at `p = 1/2`
with peak width `1`, and width `0` at the last sample. -/
theorem C5_microblade_taper_witness :
    ((microbladeSegs (fun q => if q = 1 then 1 else 0) 1 0
        (pathLenFrom (fun q => if q = 1 then 1 else 0) ⟨0, 0, 1⟩ [⟨1, 0, 1⟩, ⟨2, 0, 1⟩])
        0 ⟨0, 0, 1⟩ [⟨1, 0, 1⟩, ⟨2, 0, 1⟩]).map (fun s => s.2.2)).get? 1 = some 0 ∧
    taperWidth 1 0 1 (1/2) = 1 * (1 + ((1 : ℚ) - 1/2) * 0) := by
  have h := C5_microblade_taper (fun q => if q = 1 then 1 else 0) sampleCtx "rgba(0, 0, 0, 1)"
    1 (95/100) 0 ⟨0, 0, 1⟩ [⟨1, 0, 1⟩, ⟨2, 0, 1⟩] 1
    (by decide) (by intro p hp; fin_cases hp <;> rfl)
    (by norm_num [pathLenFrom, segLen]) (by norm_num)
  exact ⟨h.2.2.2.1, h.2.2.2.2.1⟩

/-! ### C4 — shader distance gating -/

/-- The last element of an increasing list that is `< j`, if any. -/
def lastBelow (j : ℕ) : List ℕ → Option ℕ
  | [] => none
  | s :: rest => if s < j then some ((lastBelow j rest).getD s) else lastBelow j rest

/-- The reference position used by the distance gate at index `j`: the
(unjittered) position of the last stamped point before `j`, or the initial
position `(lx, ly)` when nothing before `j` was stamped. -/
def refXY (P : ℕ → Pt) (lx ly : ℚ) (stamps : List ℕ) (j : ℕ) : ℚ × ℚ :=
  match lastBelow j stamps with
  | none => (lx, ly)
  | some s => ((P s).x, (P s).y)

theorem lastBelow_none {j : ℕ} : ∀ {l : List ℕ}, (∀ s ∈ l, j ≤ s) → lastBelow j l = none := by
  intro l
  induction l with
  | nil => intro _; rfl
  | cons s rest ih =>
    intro h
    rw [lastBelow, if_neg (by have := h s (List.mem_cons_self ..); omega)]
    exact ih fun x hx => h x (List.mem_cons_of_mem _ hx)

/-- Every stamp index of the shader loop lies in `[i, i + fuel)`. -/
theorem shaderDabs_idx_bounds (P : ℕ → Pt) (size opacity scatter ps minD : ℚ)
    (jsSqrt : ℚ → ℚ) (rand : ℕ → ℚ) :
    ∀ (fuel i : ℕ) (lx ly : ℚ) (k : ℕ) (j : ℕ),
      j ∈ (shaderDabs P size opacity scatter ps minD jsSqrt rand fuel i lx ly k).map Dab.idx →
      i ≤ j ∧ j < i + fuel := by
  intro fuel
  induction fuel with
  | zero =>
    intro i lx ly k j hj
    rw [shaderDabs] at hj
    simp at hj
  | succ n ih =>
    intro i lx ly k j hj
    rw [shaderDabs] at hj
    split_ifs at hj with hgate
    · simp only [List.map_cons, List.mem_cons] at hj
      rcases hj with rfl | hj'
      · omega
      · have := ih (i+1) (P i).x (P i).y (k+2) j hj'
        omega
    · have := ih (i+1) lx ly k j hj
      omega

/-- The stamp indices of the shader loop do not depend on the random stream
or on the random-counter position (jitter affects only dab centers). -/
theorem shaderDabs_idx_rand_independent (P : ℕ → Pt) (size opacity scatter ps minD : ℚ)
    (jsSqrt : ℚ → ℚ) (rand1 rand2 : ℕ → ℚ) :
    ∀ (fuel i : ℕ) (lx ly : ℚ) (k1 k2 : ℕ),
      (shaderDabs P size opacity scatter ps minD jsSqrt rand1 fuel i lx ly k1).map Dab.idx =
      (shaderDabs P size opacity scatter ps minD jsSqrt rand2 fuel i lx ly k2).map Dab.idx := by
  intro fuel
  induction fuel with
  | zero => intro i lx ly k1 k2; rfl
  | succ n ih =>
    intro i lx ly k1 k2
    rw [shaderDabs, shaderDabs]
    split_ifs with hgate
    · simp only [List.map_cons]
      rw [ih (i+1) (P i).x (P i).y (k1+2) (k2+2)]
    · exact ih (i+1) lx ly k1 k2

/-- Distance-gate characterization of the shader loop's stamps: index `j` is
stamped iff it lies in range and the gate fires against the reference
position (the unjittered position of the last stamped index before `j`, or
the loop's starting position). -/
theorem shaderDabs_stamp_iff (P : ℕ → Pt) (size opacity scatter ps minD : ℚ)
    (jsSqrt : ℚ → ℚ) (rand : ℕ → ℚ) :
    ∀ (fuel i : ℕ) (lx ly : ℚ) (k : ℕ) (j : ℕ),
      (j ∈ (shaderDabs P size opacity scatter ps minD jsSqrt rand fuel i lx ly k).map Dab.idx ↔
        (i ≤ j ∧ j < i + fuel ∧
          minD ≤ jsSqrt
            (((P j).x - (refXY P lx ly
                ((shaderDabs P size opacity scatter ps minD jsSqrt rand fuel i lx ly k).map
                  Dab.idx) j).1) *
             ((P j).x - (refXY P lx ly
                ((shaderDabs P size opacity scatter ps minD jsSqrt rand fuel i lx ly k).map
                  Dab.idx) j).1) +
             ((P j).y - (refXY P lx ly
                ((shaderDabs P size opacity scatter ps minD jsSqrt rand fuel i lx ly k).map
                  Dab.idx) j).2) *
             ((P j).y - (refXY P lx ly
                ((shaderDabs P size opacity scatter ps minD jsSqrt rand fuel i lx ly k).map
                  Dab.idx) j).2)))) := by
  intro fuel
  induction fuel with
  | zero =>
    intro i lx ly k j
    rw [shaderDabs]
    simp only [List.map_nil, List.not_mem_nil, false_iff]
    omega
  | succ n ih =>
    intro i lx ly k j
    have hbound := shaderDabs_idx_bounds P size opacity scatter ps minD jsSqrt rand
    rw [shaderDabs]
    split_ifs with hgate
    · -- stamped at i; tail processed from i+1 with reference (P i)
      simp only [List.map_cons, List.mem_cons]
      have htail_ge : ∀ s ∈ (shaderDabs P size opacity scatter ps minD jsSqrt rand
          n (i+1) (P i).x (P i).y (k+2)).map Dab.idx, i + 1 ≤ s :=
        fun s hs => (hbound n (i+1) (P i).x (P i).y (k+2) s hs).1
      rcases Nat.lt_trichotomy j i with hji | rfl | hij
      · -- j < i: both sides false
        constructor
        · intro h
          rcases h with rfl | h'
          · omega
          · have := htail_ge j h'
            omega
        · intro h
          omega
      · -- j = i: stamped, and the reference is the starting position
        have hlb : lastBelow j (j :: (shaderDabs P size opacity scatter ps minD jsSqrt rand
            n (j+1) (P j).x (P j).y (k+2)).map Dab.idx) = none := by
          rw [lastBelow, if_neg (by omega)]
          exact lastBelow_none fun s hs => by have := htail_ge s hs; omega
        rw [refXY, hlb]
        simp only [true_or, true_iff]
        exact ⟨le_refl j, by omega, hgate⟩
      · -- i < j: defer to the tail via the induction hypothesis
        have hne : j ≠ i := by omega
        have hlb : lastBelow j (i :: (shaderDabs P size opacity scatter ps minD jsSqrt rand
            n (i+1) (P i).x (P i).y (k+2)).map Dab.idx) =
            some ((lastBelow j ((shaderDabs P size opacity scatter ps minD jsSqrt rand
              n (i+1) (P i).x (P i).y (k+2)).map Dab.idx)).getD i) := by
          rw [lastBelow, if_pos (by omega)]
        have hrefeq : refXY P lx ly (i :: (shaderDabs P size opacity scatter ps minD jsSqrt rand
            n (i+1) (P i).x (P i).y (k+2)).map Dab.idx) j =
            refXY P (P i).x (P i).y ((shaderDabs P size opacity scatter ps minD jsSqrt rand
              n (i+1) (P i).x (P i).y (k+2)).map Dab.idx) j := by
          rw [refXY, refXY, hlb]
          cases hlb' : lastBelow j ((shaderDabs P size opacity scatter ps minD jsSqrt rand
              n (i+1) (P i).x (P i).y (k+2)).map Dab.idx) <;> simp
        rw [hrefeq]
        have hih := ih (i+1) (P i).x (P i).y (k+2) j
        constructor
        · intro h
          rcases h with rfl | h'
          · omega
          · obtain ⟨h1, h2, h3⟩ := hih.mp h'
            exact ⟨by omega, by omega, h3⟩
        · intro ⟨h1, h2, h3⟩
          right
          exact hih.mpr ⟨by omega, by omega, h3⟩
    · -- not stamped at i: same stamp list, same starting reference
      have htail_ge : ∀ s ∈ (shaderDabs P size opacity scatter ps minD jsSqrt rand
          n (i+1) lx ly k).map Dab.idx, i + 1 ≤ s :=
        fun s hs => (hbound n (i+1) lx ly k s hs).1
      have hih := ih (i+1) lx ly k j
      rcases Nat.lt_trichotomy j i with hji | rfl | hij
      · constructor
        · intro h
          have := htail_ge j h
          omega
        · intro h
          omega
      · -- j = i: not in the tail (all tail stamps exceed i), and the gate is false
        have hlb : lastBelow j ((shaderDabs P size opacity scatter ps minD jsSqrt rand
            n (j+1) lx ly k).map Dab.idx) = none :=
          lastBelow_none fun s hs => by have := htail_ge s hs; omega
        rw [refXY, hlb]
        constructor
        · intro h
          have := htail_ge j h
          omega
        · intro ⟨h1, h2, h3⟩
          exact absurd h3 hgate
      · constructor
        · intro h
          obtain ⟨h1, h2, h3⟩ := hih.mp h
          exact ⟨by omega, by omega, h3⟩
        · intro ⟨h1, h2, h3⟩
          exact hih.mpr ⟨by omega, by omega, h3⟩

/-- When the gate always fires, every index in `[i, i+fuel)` is stamped. -/
theorem shaderDabs_all_stamped (P : ℕ → Pt) (size opacity scatter ps minD : ℚ)
    (jsSqrt : ℚ → ℚ) (rand : ℕ → ℚ)
    (h : ∀ (x y : ℚ) (m : ℕ),
      minD ≤ jsSqrt (((P m).x - x) * ((P m).x - x) + ((P m).y - y) * ((P m).y - y))) :
    ∀ (fuel i : ℕ) (lx ly : ℚ) (k : ℕ),
      (shaderDabs P size opacity scatter ps minD jsSqrt rand fuel i lx ly k).map Dab.idx =
        List.range' i fuel := by
  intro fuel
  induction fuel with
  | zero => intro i lx ly k; rfl
  | succ n ih =>
    intro i lx ly k
    rw [shaderDabs, if_pos (h lx ly i), List.range'_succ]
    simp only [List.map_cons]
    rw [ih (i+1) (P i).x (P i).y (k+2)]

/-- C4: for the Shader loop over a non-empty stroke, (1) point `i ≥ 1` is
stamped iff the gate `size*spacing ≤ distance` fires against the unjittered
position of the last stamped point before `i` (or the first point); (2) the
stamp set is independent of the random stream and counter, so jitter never
compounds into the distance checks; (3) with `spacing = 0` every point is
stamped. -/
theorem C4_shader_distance_gating (size opacity scatter ps spacing : ℚ)
    (jsSqrt : ℚ → ℚ) (rand : ℕ → ℚ) (p0 : Pt) (rest : List Pt) :
    (∀ j, 1 ≤ j → j < (p0 :: rest).length →
      (j ∈ (shaderDabs (fun i => (p0 :: rest).getD i p0) size opacity scatter ps
          (size * spacing) jsSqrt rand ((p0 :: rest).length - 1) 1 p0.x p0.y 0).map Dab.idx ↔
        size * spacing ≤ jsSqrt
          ((((p0 :: rest).getD j p0).x - (refXY (fun i => (p0 :: rest).getD i p0) p0.x p0.y
              ((shaderDabs (fun i => (p0 :: rest).getD i p0) size opacity scatter ps
                (size * spacing) jsSqrt rand ((p0 :: rest).length - 1) 1 p0.x p0.y 0).map
                Dab.idx) j).1) *
           (((p0 :: rest).getD j p0).x - (refXY (fun i => (p0 :: rest).getD i p0) p0.x p0.y
              ((shaderDabs (fun i => (p0 :: rest).getD i p0) size opacity scatter ps
                (size * spacing) jsSqrt rand ((p0 :: rest).length - 1) 1 p0.x p0.y 0).map
                Dab.idx) j).1) +
           (((p0 :: rest).getD j p0).y - (refXY (fun i => (p0 :: rest).getD i p0) p0.x p0.y
              ((shaderDabs (fun i => (p0 :: rest).getD i p0) size opacity scatter ps
                (size * spacing) jsSqrt rand ((p0 :: rest).length - 1) 1 p0.x p0.y 0).map
                Dab.idx) j).2) *
           (((p0 :: rest).getD j p0).y - (refXY (fun i => (p0 :: rest).getD i p0) p0.x p0.y
              ((shaderDabs (fun i => (p0 :: rest).getD i p0) size opacity scatter ps
                (size * spacing) jsSqrt rand ((p0 :: rest).length - 1) 1 p0.x p0.y 0).map
                Dab.idx) j).2)))) ∧
    (∀ (rand1 rand2 : ℕ → ℚ) (k1 k2 : ℕ),
      (shaderDabs (fun i => (p0 :: rest).getD i p0) size opacity scatter ps
        (size * spacing) jsSqrt rand1 ((p0 :: rest).length - 1) 1 p0.x p0.y k1).map Dab.idx =
      (shaderDabs (fun i => (p0 :: rest).getD i p0) size opacity scatter ps
        (size * spacing) jsSqrt rand2 ((p0 :: rest).length - 1) 1 p0.x p0.y k2).map Dab.idx) ∧
    (spacing = 0 → (∀ q, 0 ≤ q → 0 ≤ jsSqrt q) →
      ∀ j, 1 ≤ j → j < (p0 :: rest).length →
        j ∈ (shaderDabs (fun i => (p0 :: rest).getD i p0) size opacity scatter ps
          (size * spacing) jsSqrt rand ((p0 :: rest).length - 1) 1 p0.x p0.y 0).map Dab.idx) := by
  refine ⟨?_, ?_, ?_⟩
  · intro j h1 h2
    have hiff := shaderDabs_stamp_iff (fun i => (p0 :: rest).getD i p0) size opacity scatter ps
      (size * spacing) jsSqrt rand ((p0 :: rest).length - 1) 1 p0.x p0.y 0 j
    constructor
    · intro h
      exact (hiff.mp h).2.2
    · intro h
      refine hiff.mpr ⟨h1, ?_, h⟩
      simp only [List.length_cons] at h2 ⊢
      omega
  · intro rand1 rand2 k1 k2
    exact shaderDabs_idx_rand_independent ..
  · intro hsp hpos j h1 h2
    rw [shaderDabs_all_stamped]
    · rw [List.mem_range'_1]
      simp only [List.length_cons] at h2 ⊢
      omega
    · intro x y m
      rw [hsp, mul_zero]
      refine hpos _ ?_
      nlinarith [mul_self_nonneg (((p0 :: rest).getD m p0).x - x),
        mul_self_nonneg (((p0 :: rest).getD m p0).y - y)]

/-- Witness for C4 at concrete inputs: with `spacing = 0`, the second point
of a concrete two-point stroke is stamped. -/
theorem C4_shader_distance_gating_witness :
    1 ∈ (shaderDabs (fun i => ([⟨0, 0, 1⟩, ⟨5, 0, 1⟩] : List Pt).getD i ⟨0, 0, 1⟩)
      3 1 (1/10) (9/10) (3 * 0) (fun q => q) (fun _ => 0)
      (([⟨0, 0, 1⟩, ⟨5, 0, 1⟩] : List Pt).length - 1) 1 0 0 0).map Dab.idx := by
  have h := (C4_shader_distance_gating 3 1 (1/10) (9/10) 0 (fun q => q) (fun _ => 0)
    ⟨0, 0, 1⟩ [⟨5, 0, 1⟩]).2.2 rfl (fun q hq => hq) 1 le_rfl (by decide)
  simpa using h

/-! ### C7 — stamp count versus spacing -/

/-- Two-threshold simulation for the shader loop on a stroke that is
monotone along a horizontal line: with `d1 ≤ d2`, (A) if the two runs'
reference positions satisfy `lx1 - lx2 ≤ d2 - d1` then the `d2`-run stamps
no more than the `d1`-run, and (B) unconditionally it stamps at most one
more. -/
theorem shader_mono_aux (P : ℕ → Pt) (size opacity scatter ps : ℚ) (jsSqrt : ℚ → ℚ)
    (rand : ℕ → ℚ) (yc : ℚ) (n : ℕ)
    (hy : ∀ m, m < n → (P m).y = yc)
    (hmono : ∀ a b, a ≤ b → b < n → (P a).x ≤ (P b).x)
    (hs : ∀ u v : ℚ, (∃ a, a < n ∧ (P a).x = u) → (∃ b, b < n ∧ (P b).x = v) →
      jsSqrt ((u - v) * (u - v)) = |u - v|)
    (d1 d2 : ℚ) (hd : d1 ≤ d2) :
    ∀ (fuel i k1 k2 : ℕ) (lx1 lx2 : ℚ),
      i + fuel ≤ n →
      (∃ a, a < n ∧ (P a).x = lx1) →
      (∃ b, b < n ∧ (P b).x = lx2) →
      (∀ m, i ≤ m → m < n → lx1 ≤ (P m).x ∧ lx2 ≤ (P m).x) →
      ((lx1 - lx2 ≤ d2 - d1 →
        (shaderDabs P size opacity scatter ps d2 jsSqrt rand fuel i lx2 yc k2).length ≤
          (shaderDabs P size opacity scatter ps d1 jsSqrt rand fuel i lx1 yc k1).length) ∧
       (shaderDabs P size opacity scatter ps d2 jsSqrt rand fuel i lx2 yc k2).length ≤
         (shaderDabs P size opacity scatter ps d1 jsSqrt rand fuel i lx1 yc k1).length + 1) := by
  intro fuel
  induction fuel with
  | zero =>
    intro i k1 k2 lx1 lx2 hn hex1 hex2 hlow
    exact ⟨fun _ => le_refl _, by simp [shaderDabs]⟩
  | succ fl ih =>
    intro i k1 k2 lx1 lx2 hn hex1 hex2 hlow
    have hi : i < n := by omega
    have hx1 : lx1 ≤ (P i).x := (hlow i le_rfl hi).1
    have hx2 : lx2 ≤ (P i).x := (hlow i le_rfl hi).2
    have hexi : ∃ a, a < n ∧ (P a).x = (P i).x := ⟨i, hi, rfl⟩
    have hd1 : jsSqrt (((P i).x - lx1) * ((P i).x - lx1) + ((P i).y - yc) * ((P i).y - yc))
        = (P i).x - lx1 := by
      rw [hy i hi]
      have he : ((P i).x - lx1) * ((P i).x - lx1) + (yc - yc) * (yc - yc)
          = ((P i).x - lx1) * ((P i).x - lx1) := by ring
      rw [he, hs _ _ hexi hex1, abs_of_nonneg (by linarith)]
    have hd2 : jsSqrt (((P i).x - lx2) * ((P i).x - lx2) + ((P i).y - yc) * ((P i).y - yc))
        = (P i).x - lx2 := by
      rw [hy i hi]
      have he : ((P i).x - lx2) * ((P i).x - lx2) + (yc - yc) * (yc - yc)
          = ((P i).x - lx2) * ((P i).x - lx2) := by ring
      rw [he, hs _ _ hexi hex2, abs_of_nonneg (by linarith)]
    simp only [shaderDabs]
    rw [hd1, hd2]
    by_cases hg2 : d2 ≤ (P i).x - lx2
    · rw [if_pos hg2]
      by_cases hg1 : d1 ≤ (P i).x - lx1
      · rw [if_pos hg1, hy i hi]
        simp only [List.length_cons]
        have := ih (i+1) (k1+2) (k2+2) (P i).x (P i).x (by omega) hexi hexi
          (fun m hm hmn => ⟨hmono i m (by omega) hmn, hmono i m (by omega) hmn⟩)
        have h1 := this.1 (by linarith)
        exact ⟨fun _ => by omega, by omega⟩
      · rw [if_neg hg1, hy i hi]
        simp only [List.length_cons]
        have := ih (i+1) k1 (k2+2) lx1 (P i).x (by omega) hex1 hexi
          (fun m hm hmn => ⟨(hlow m (by omega) hmn).1, hmono i m (by omega) hmn⟩)
        have h1 := this.1 (by linarith)
        exact ⟨fun hA => absurd (show d1 ≤ (P i).x - lx1 by linarith) hg1, by omega⟩
    · rw [if_neg hg2]
      by_cases hg1 : d1 ≤ (P i).x - lx1
      · rw [if_pos hg1, hy i hi]
        simp only [List.length_cons]
        have := ih (i+1) (k1+2) k2 (P i).x lx2 (by omega) hexi hex2
          (fun m hm hmn => ⟨hmono i m (by omega) hmn, (hlow m (by omega) hmn).2⟩)
        have h2 := this.2
        exact ⟨fun _ => by omega, by omega⟩
      · rw [if_neg hg1]
        exact ih (i+1) k1 k2 lx1 lx2 (by omega) hex1 hex2
          (fun m hm hmn => hlow m (by omega) hmn)

/-- C7 amended: for a stroke that runs monotonically along a horizontal line
(the spec's "straight path" example), the shader stamp count is
monotonically non-increasing in `spacing`; for general (back-tracking)
strokes this fails (see the counterexample).  The initial dab is
unconditional, so the loop stamp counts are compared. -/
theorem C7_spacing_monotone_on_monotone_line (size opacity scatter ps s1 s2 : ℚ)
    (jsSqrt : ℚ → ℚ) (rand1 rand2 : ℕ → ℚ) (p0 : Pt) (rest : List Pt)
    (hsize : 0 ≤ size) (hsp : s1 ≤ s2)
    (hy : ∀ m, m < (p0 :: rest).length → ((p0 :: rest).getD m p0).y = p0.y)
    (hmono : ∀ a b, a ≤ b → b < (p0 :: rest).length →
      ((p0 :: rest).getD a p0).x ≤ ((p0 :: rest).getD b p0).x)
    (hs : ∀ u v : ℚ,
      (∃ a, a < (p0 :: rest).length ∧ ((p0 :: rest).getD a p0).x = u) →
      (∃ b, b < (p0 :: rest).length ∧ ((p0 :: rest).getD b p0).x = v) →
      jsSqrt ((u - v) * (u - v)) = |u - v|) :
    (shaderDabs (fun i => (p0 :: rest).getD i p0) size opacity scatter ps (size * s2)
      jsSqrt rand2 ((p0 :: rest).length - 1) 1 p0.x p0.y 0).length ≤
    (shaderDabs (fun i => (p0 :: rest).getD i p0) size opacity scatter ps (size * s1)
      jsSqrt rand1 ((p0 :: rest).length - 1) 1 p0.x p0.y 0).length := by
  have hdd : size * s1 ≤ size * s2 := mul_le_mul_of_nonneg_left hsp hsize
  have hlen2 : (shaderDabs (fun i => (p0 :: rest).getD i p0) size opacity scatter ps
      (size * s2) jsSqrt rand2 ((p0 :: rest).length - 1) 1 p0.x p0.y 0).length =
      (shaderDabs (fun i => (p0 :: rest).getD i p0) size opacity scatter ps
        (size * s2) jsSqrt rand1 ((p0 :: rest).length - 1) 1 p0.x p0.y 0).length := by
    rw [← List.length_map _ Dab.idx, ← List.length_map _ Dab.idx,
      shaderDabs_idx_rand_independent (fun i => (p0 :: rest).getD i p0) size opacity scatter
        ps (size * s2) jsSqrt rand2 rand1 ((p0 :: rest).length - 1) 1 p0.x p0.y 0 0]
  rw [hlen2]
  have := (shader_mono_aux (fun i => (p0 :: rest).getD i p0) size opacity scatter ps jsSqrt
    rand1 p0.y (p0 :: rest).length hy hmono hs (size * s1) (size * s2) hdd
    ((p0 :: rest).length - 1) 1 0 0 p0.x p0.x
    (by simp only [List.length_cons]; omega)
    ⟨0, by simp, rfl⟩ ⟨0, by simp, rfl⟩
    (fun m hm hmn => ⟨hmono 0 m (by omega) hmn, hmono 0 m (by omega) hmn⟩)).1
    (by linarith)
  exact this

/-- The concrete square root used by the C7 counterexample's integer
geometry. -/
def sqrtTable : ℚ → ℚ :=
  fun q => if q = 0 then 0 else if q = 4 then 2 else if q = 9 then 3 else if q = 16 then 4
    else if q = 25 then 5 else if q = 36 then 6 else if q = 81 then 9 else 0

/-- The back-tracking collinear stroke `x = 0, 5, 9, 3` (y = 0) of the C7
counterexample. -/
def backtrackPts : List Pt := [⟨0, 0, 1⟩, ⟨5, 0, 1⟩, ⟨9, 0, 1⟩, ⟨3, 0, 1⟩]

/-- C7 counterexample: on the stroke `x = 0, 5, 9, 3` with `size = 1`, the
spacings `5 ≤ 6` give 1 and 2 loop stamps respectively — the stamp count
*increases* with spacing.  The last conjunct checks that `sqrtTable` really
is the Euclidean square root on every pairwise squared distance of the
stroke, so this is a genuine geometric instance. -/
theorem C7_spacing_not_monotone_counterexample :
    (5 : ℚ) ≤ 6 ∧
    (shaderDabs (fun i => backtrackPts.getD i ⟨0, 0, 1⟩) 1 1 0 0 (1 * 5)
      sqrtTable (fun _ => 0) (backtrackPts.length - 1) 1 0 0 0).length = 1 ∧
    (shaderDabs (fun i => backtrackPts.getD i ⟨0, 0, 1⟩) 1 1 0 0 (1 * 6)
      sqrtTable (fun _ => 0) (backtrackPts.length - 1) 1 0 0 0).length = 2 ∧
    ((backtrackPts.map Pt.x).all fun u => (backtrackPts.map Pt.x).all fun v =>
      decide (sqrtTable ((u - v) * (u - v)) = |u - v|)) = true := by
  refine ⟨by norm_num, ?_, ?_, by norm_num [backtrackPts, sqrtTable]⟩
  · norm_num [shaderDabs, sqrtTable, backtrackPts, press]
  · norm_num [shaderDabs, sqrtTable, backtrackPts, press]

/-- Square root table for the unit-spaced three-point witness stroke. -/
def unitSqrt : ℚ → ℚ :=
  fun q => if q = 0 then 0 else if q = 1 then 1 else if q = 4 then 2 else 0

/-- The monotone collinear stroke `x = 0, 1, 2` used by the C7 witness. -/
def monoPts : List Pt := [⟨0, 0, 1⟩, ⟨1, 0, 1⟩, ⟨2, 0, 1⟩]

/-- Witness for C7 at concrete inputs: on the monotone stroke `x = 0, 1, 2`
with `size = 1`, spacing 2 stamps no more loop dabs than spacing 1. -/
theorem C7_spacing_monotone_witness :
    (shaderDabs (fun i => monoPts.getD i ⟨0, 0, 1⟩) 1 1 0 0 ((1 : ℚ) * 2)
      unitSqrt (fun _ => 0) (monoPts.length - 1) 1 0 0 0).length ≤
    (shaderDabs (fun i => monoPts.getD i ⟨0, 0, 1⟩) 1 1 0 0 ((1 : ℚ) * 1)
      unitSqrt (fun _ => 0) (monoPts.length - 1) 1 0 0 0).length := by
  have h := C7_spacing_monotone_on_monotone_line 1 1 0 0 1 2 unitSqrt
    (fun _ => 0) (fun _ => 0) ⟨0, 0, 1⟩ [⟨1, 0, 1⟩, ⟨2, 0, 1⟩]
    (by norm_num) (by norm_num)
    (by
      intro m hm
      simp only [List.length_cons, List.length_nil] at hm
      interval_cases m <;> rfl)
    (by
      intro a b hab hb
      simp only [List.length_cons, List.length_nil] at hb
      interval_cases b <;> interval_cases a <;>
        norm_num [List.getD_cons_zero, List.getD_cons_succ])
    (by
      rintro u v ⟨a, ha, rfl⟩ ⟨b, hb, rfl⟩
      simp only [List.length_cons, List.length_nil] at ha hb
      interval_cases a <;> interval_cases b <;>
        simp [unitSqrt, List.getD_cons_zero, List.getD_cons_succ,
          abs_of_nonneg, abs_of_nonpos] <;>
        norm_num)
  simpa [monoPts] using h

end Blekk
